import Mathlib

/-!
The ftl deployment engine (`pkg/deployment/deployment.go`).

A shallow embedding of the blue-green deployment controller.  Every remote
operation goes through `runCommand`, which asks the `Executor` collaborator.
The embedding threads the list of commands issued so far (the trace) through
every function; the executor answers a command as a function of the commands
issued before it, so any sequence of remote results is some executor.
`time.Sleep` issues no command and is not part of the trace.  Go strings are
modelled by Lean strings (valid Unicode text).
-/

namespace Ftl

/-! ## Go library functions used by the source -/

/-- Code points of `unicode.IsSpace`: the Unicode `White_Space` property. -/
def isSpace (c : Char) : Bool :=
  let n := c.toNat
  (9 ≤ n && n ≤ 13) || n == 32 || n == 0x85 || n == 0xA0 || n == 0x1680 ||
  (0x2000 ≤ n && n ≤ 0x200A) || n == 0x2028 || n == 0x2029 || n == 0x202F ||
  n == 0x205F || n == 0x3000

/-- Drop the white space at the end of a list of characters. -/
def dropTrailingSpace : List Char → List Char
  | [] => []
  | c :: cs =>
    match dropTrailingSpace cs with
    | [] => if isSpace c then [] else [c]
    | r => c :: r

/-- The function `strings.TrimSpace`: leading and trailing white space removed. -/
def trimSpace (s : String) : String :=
  String.mk (dropTrailingSpace (s.data.dropWhile isSpace))

/-- Worker of `fields`: `cur` is the field being read, reversed. -/
def fieldsChars : List Char → List Char → List String
  | cur, [] => if cur.isEmpty then [] else [String.mk cur.reverse]
  | cur, c :: cs =>
    if isSpace c then
      (if cur.isEmpty then fieldsChars [] cs else String.mk cur.reverse :: fieldsChars [] cs)
    else fieldsChars (c :: cur) cs

/-- The function `strings.Fields`: the maximal runs of non-space characters. -/
def fields (s : String) : List String := fieldsChars [] s.data

/-- First byte of the UTF-8 encoding of a character. -/
def utf8FirstByte (c : Char) : Nat :=
  let n := c.toNat
  if n < 0x80 then n
  else if n < 0x800 then 0xC0 + n / 64
  else if n < 0x10000 then 0xE0 + n / 4096
  else 0xF0 + n / 262144

/-- The byte `s[0]` of a Go string; `none` when the string is empty (the index
expression panics). -/
def firstByte (s : String) : Option Nat :=
  match s.data with
  | [] => none
  | c :: _ => some (utf8FirstByte c)

/-- The function `unicode.IsLetter` on a rune below 256 (the Latin-1 table):
`rune(volume[0])` is always such a rune. -/
def isLetter (b : Nat) : Bool :=
  (0x41 ≤ b && b ≤ 0x5A) || (0x61 ≤ b && b ≤ 0x7A) || b == 0xAA || b == 0xB5 ||
  b == 0xBA || (0xC0 ≤ b && b ≤ 0xD6) || (0xD8 ≤ b && b ≤ 0xF6) ||
  (0xF8 ≤ b && b ≤ 0xFF)

/-! ## Data model -/

/-- The type `config.HealthCheck`; durations are nanoseconds. -/
structure HealthCheck where
  Path : String
  Interval : Int
  Timeout : Int
  Retries : Int
deriving DecidableEq

/-- The type `config.Service`, with the fields the deployment engine reads.
`EnvVars` lists the map's entries in the order the `range` loop visits them. -/
structure Service where
  Name : String
  Image : String
  Port : Int
  Volumes : List String
  EnvVars : List (String × String)
  Forwards : List String
  HealthCheck : Option HealthCheck
deriving DecidableEq

/-- Entry of `NetworkSettings.Networks`. -/
structure NetworkEntry where
  Aliases : List String
deriving DecidableEq

/-- The decoded `docker inspect` record.  Go maps are association lists read
with `List.lookup`. -/
structure containerInfo where
  ID : String
  ConfigImage : String
  ConfigEnv : List String
  ConfigLabels : List (String × String)
  Image : String
  Networks : List (String × NetworkEntry)
  Binds : List String
deriving DecidableEq

/-- A remote command: the command name followed by its arguments. -/
abbrev Cmd := List String

/-- Commands issued so far, oldest first. -/
abbrev Trace := List Cmd

/-- What `Executor.RunCommand` gives back: an error, a reader that fails while
it is read, or the output. -/
inductive ExecResult where
  | ok (output : String)
  | runErr (e : String)
  | readErr (e : String)
deriving DecidableEq

/-- Outcome of a Go function returning `(α, error)`; `panic` is a run-time panic. -/
inductive Res (α : Type) where
  | ok (a : α)
  | err (msg : String)
  | panic
deriving DecidableEq

/-- The `Deployment` receiver with its collaborators.  `executor` answers a
command given the commands issued before it.  `hash` is `config.Service.Hash`
(package `config`), `seconds` is `int(d.Seconds())` on a `time.Duration`, and
`unmarshal` is `json.Unmarshal` into `[]containerInfo` (`none` on error). -/
structure Deployment where
  executor : Trace → Cmd → ExecResult
  hash : Service → Except String String
  seconds : Int → Int
  unmarshal : String → Option (List containerInfo)

def newContainerSuffix : String := "_new"

/-! ## Operations -/

def runCommand (d : Deployment) (command : String) (args : List String) (tr : Trace) :
    Res String × Trace :=
  match d.executor tr (command :: args) with
  | .runErr e => (.err ("failed to run command: " ++ e), tr ++ [command :: args])
  | .readErr r =>
    (.err ("failed to read command output: " ++ r ++ " (original error: %!w(<nil>))"),
      tr ++ [command :: args])
  | .ok output => (.ok (trimSpace output), tr ++ [command :: args])

def pullImage (d : Deployment) (imageName : String) (tr : Trace) : Res String × Trace :=
  match runCommand d "docker" ["pull", imageName] tr with
  | (.err e, tr1) => (.err e, tr1)
  | (.panic, tr1) => (.panic, tr1)
  | (.ok _, tr1) =>
    match runCommand d "docker" ["images", "--no-trunc", "--format=\x7b\x7b.ID\x7d\x7d", imageName] tr1 with
    | (.err e, tr2) => (.err e, tr2)
    | (.panic, tr2) => (.panic, tr2)
    | (.ok output, tr2) => (.ok (trimSpace output), tr2)

/-- The `-e` arguments of `startContainer`. -/
def envArgs : List (String × String) → List String
  | [] => []
  | (key, value) :: rest => "-e" :: (key ++ "=" ++ value) :: envArgs rest

/-- The `-v` arguments of `startContainer`; `none` when `volume[0]` panics. -/
def volumeArgs (project : String) : List String → Option (List String)
  | [] => some []
  | volume :: rest =>
    match firstByte volume with
    | none => none
    | some b =>
      let volume := if isLetter b then project ++ "-" ++ volume else volume
      match volumeArgs project rest with
      | none => none
      | some r => some ("-v" :: volume :: r)

/-- The `--health-*` arguments of `startContainer`. -/
def healthArgs (d : Deployment) (service : Service) : List String :=
  match service.HealthCheck with
  | none => []
  | some hc =>
    ["--health-cmd",
      "curl -sf http://localhost:" ++ toString service.Port ++ hc.Path ++ " || exit 1",
     "--health-interval", toString (d.seconds hc.Interval) ++ "s",
     "--health-retries", toString hc.Retries,
     "--health-timeout", toString (d.seconds hc.Timeout) ++ "s"]

/-- The `-p` arguments of `startContainer`. -/
def forwardArgs : List String → List String
  | [] => []
  | forward :: rest => "-p" :: forward :: forwardArgs rest

def startContainer (d : Deployment) (project : String) (service : Service) (suffix : String)
    (tr : Trace) : Res Unit × Trace :=
  let svcName := service.Name
  let args := ["run", "-d", "--name", svcName ++ suffix, "--network", project,
    "--network-alias", svcName ++ suffix]
  let args := args ++ envArgs service.EnvVars
  match volumeArgs project service.Volumes with
  | none => (.panic, tr)
  | some vargs =>
    let args := args ++ vargs
    let args := args ++ healthArgs d service
    let args := args ++ forwardArgs service.Forwards
    match d.hash service with
    | .error e => (.err ("failed to generate config hash: " ++ e), tr)
    | .ok hash =>
      let args := args ++ ["--label", "ftl.config-hash=" ++ hash]
      let args := args ++ [service.Image]
      match runCommand d "docker" args tr with
      | (.err e, tr1) => (.err e, tr1)
      | (.panic, tr1) => (.panic, tr1)
      | (.ok _, tr1) => (.ok (), tr1)

/-- The polling command of `performHealthChecks`. -/
def healthPoll (container : String) : Cmd :=
  ["docker", "inspect", "--format=\x7b\x7b.State.Health.Status\x7d\x7d", container]

/-- The `for` loop of `performHealthChecks` with `n` iterations left. -/
def healthLoop (d : Deployment) (container : String) : Nat → Trace → Res Unit × Trace
  | 0, tr => (.err "container failed to become healthy", tr)
  | n + 1, tr =>
    match runCommand d "docker"
        ["inspect", "--format=\x7b\x7b.State.Health.Status\x7d\x7d", container] tr with
    | (.ok output, tr1) =>
      if trimSpace output = "healthy" then (.ok (), tr1) else healthLoop d container n tr1
    | (_, tr1) => healthLoop d container n tr1

def performHealthChecks (d : Deployment) (container : String) (healthCheck : Option HealthCheck)
    (tr : Trace) : Res Unit × Trace :=
  match healthCheck with
  | none => (.ok (), tr)
  | some hc => healthLoop d container hc.Retries.toNat tr

/-- The loop of `getContainerInfo` over the listed container IDs. -/
def scanContainers (d : Deployment) (service network : String) :
    List String → Trace → Res containerInfo × Trace
  | [], tr =>
    (.err ("no container found with alias " ++ service ++ " in network " ++ network), tr)
  | cid :: rest, tr =>
    match runCommand d "docker" ["inspect", cid] tr with
    | (.ok inspectOutput, tr1) =>
      match d.unmarshal inspectOutput with
      | some (info :: _) =>
        match info.Networks.lookup network with
        | some aliases =>
          if aliases.Aliases.contains service then (.ok info, tr1)
          else scanContainers d service network rest tr1
        | none => scanContainers d service network rest tr1
      | _ => scanContainers d service network rest tr1
    | (_, tr1) => scanContainers d service network rest tr1

def getContainerInfo (d : Deployment) (service network : String) (tr : Trace) :
    Res containerInfo × Trace :=
  match runCommand d "docker" ["ps", "-aq", "--filter", "network=" ++ network] tr with
  | (.err e, tr1) => (.err ("failed to get container IDs: " ++ e), tr1)
  | (.panic, tr1) => (.panic, tr1)
  | (.ok output, tr1) => scanContainers d service network (fields output) tr1

def getContainerID (d : Deployment) (project service : String) (tr : Trace) :
    Res String × Trace :=
  match getContainerInfo d service project tr with
  | (.err e, tr1) => (.err e, tr1)
  | (.panic, tr1) => (.panic, tr1)
  | (.ok info, tr1) => (.ok info.ID, tr1)

/-- The loops `for _, cmd := range cmds` of `switchTraffic` and `cleanup`: run
`cmd[0]` with arguments `cmd[1:]` for each command in order and stop at the
first failure. -/
def runCmds (d : Deployment) : List Cmd → Trace → Res Unit × Trace
  | [], tr => (.ok (), tr)
  | [] :: _, tr => (.panic, tr)
  | (command :: args) :: rest, tr =>
    match runCommand d command args tr with
    | (.err e, tr1) =>
      (.err ("failed to execute command '" ++ " ".intercalate (command :: args) ++ "': " ++ e),
        tr1)
    | (.panic, tr1) => (.panic, tr1)
    | (.ok _, tr1) => runCmds d rest tr1

def switchTraffic (d : Deployment) (project service : String) (tr : Trace) :
    Res String × Trace :=
  let newContainer := service ++ newContainerSuffix
  match getContainerID d project service tr with
  | (.err e, tr1) => (.err ("failed to get old container ID: " ++ e), tr1)
  | (.panic, tr1) => (.panic, tr1)
  | (.ok oldContainer, tr1) =>
    match runCmds d
        [["docker", "network", "disconnect", project, newContainer],
         ["docker", "network", "connect", "--alias", service, project, newContainer]] tr1 with
    | (.err e, tr2) => (.err e, tr2)
    | (.panic, tr2) => (.panic, tr2)
    | (.ok _, tr2) =>
      match runCmds d [["docker", "network", "disconnect", project, oldContainer]] tr2 with
      | (.err e, tr3) => (.err e, tr3)
      | (.panic, tr3) => (.panic, tr3)
      | (.ok _, tr3) => (.ok oldContainer, tr3)

def cleanup (d : Deployment) (oldContID service : String) (tr : Trace) : Res Unit × Trace :=
  runCmds d
    [["docker", "stop", oldContID],
     ["docker", "rm", oldContID],
     ["docker", "rename", service ++ newContainerSuffix, service]] tr

def InstallService (d : Deployment) (project : String) (service : Service) (tr : Trace) :
    Res Unit × Trace :=
  match pullImage d service.Image tr with
  | (.err e, tr1) => (.err ("failed to pull image for " ++ service.Image ++ ": " ++ e), tr1)
  | (.panic, tr1) => (.panic, tr1)
  | (.ok _, tr1) =>
    match startContainer d project service "" tr1 with
    | (.err e, tr2) =>
      (.err ("failed to start container for " ++ service.Image ++ ": " ++ e), tr2)
    | (.panic, tr2) => (.panic, tr2)
    | (.ok _, tr2) =>
      let svcName := service.Name
      match performHealthChecks d svcName service.HealthCheck tr2 with
      | (.err e, tr3) =>
        (.err ("install failed for " ++ svcName ++ ": container is unhealthy: " ++ e), tr3)
      | (.panic, tr3) => (.panic, tr3)
      | (.ok _, tr3) => (.ok (), tr3)

def UpdateService (d : Deployment) (project : String) (service : Service) (tr : Trace) :
    Res Unit × Trace :=
  let svcName := service.Name
  match pullImage d service.Image tr with
  | (.err e, tr1) => (.err ("failed to pull new image for " ++ svcName ++ ": " ++ e), tr1)
  | (.panic, tr1) => (.panic, tr1)
  | (.ok _, tr1) =>
    match startContainer d project service newContainerSuffix tr1 with
    | (.err e, tr2) =>
      (.err ("failed to start new container for " ++ svcName ++ ": " ++ e), tr2)
    | (.panic, tr2) => (.panic, tr2)
    | (.ok _, tr2) =>
      match performHealthChecks d (svcName ++ newContainerSuffix) service.HealthCheck tr2 with
      | (.panic, tr3) => (.panic, tr3)
      | (.err e, tr3) =>
        match runCommand d "docker" ["rm", "-f", svcName ++ newContainerSuffix] tr3 with
        | (.err e2, tr4) =>
          (.err ("update failed for " ++ svcName ++
            ": new container is unhealthy and cleanup failed: " ++ e2), tr4)
        | (.panic, tr4) => (.panic, tr4)
        | (.ok _, tr4) =>
          (.err ("update failed for " ++ svcName ++ ": new container is unhealthy: " ++ e), tr4)
      | (.ok _, tr3) =>
        match switchTraffic d project svcName tr3 with
        | (.err e, tr4) => (.err ("failed to switch traffic for " ++ svcName ++ ": " ++ e), tr4)
        | (.panic, tr4) => (.panic, tr4)
        | (.ok oldContID, tr4) =>
          match cleanup d oldContID svcName tr4 with
          | (.err e, tr5) => (.err ("failed to cleanup for " ++ svcName ++ ": " ++ e), tr5)
          | (.panic, tr5) => (.panic, tr5)
          | (.ok _, tr5) => (.ok (), tr5)

/-- The map read `Labels[key]`: the empty string when the key is absent. -/
def labelOf (labels : List (String × String)) (key : String) : String :=
  (labels.lookup key).getD ""

def serviceChanged (d : Deployment) (project : String) (service : Service) (tr : Trace) :
    Res Bool × Trace :=
  match getContainerInfo d service.Name project tr with
  | (.err e, tr1) => (.err ("failed to get container info: " ++ e), tr1)
  | (.panic, tr1) => (.panic, tr1)
  | (.ok info, tr1) =>
    match d.hash service with
    | .error e => (.err ("failed to generate config hash: " ++ e), tr1)
    | .ok hash => (.ok (labelOf info.ConfigLabels "ftl.config-hash" != hash), tr1)

def deployService (d : Deployment) (project : String) (service : Service) (tr : Trace) :
    Res Unit × Trace :=
  match pullImage d service.Image tr with
  | (.err e, tr1) => (.err ("failed to pull image for " ++ service.Name ++ ": " ++ e), tr1)
  | (.panic, tr1) => (.panic, tr1)
  | (.ok hash, tr1) =>
    match getContainerInfo d service.Name project tr1 with
    | (.panic, tr2) => (.panic, tr2)
    | (.err _, tr2) =>
      match InstallService d project service tr2 with
      | (.err e, tr3) =>
        (.err ("failed to install service " ++ service.Name ++ ": " ++ e), tr3)
      | (.panic, tr3) => (.panic, tr3)
      | (.ok _, tr3) => (.ok (), tr3)
    | (.ok info, tr2) =>
      if hash != info.Image then
        match UpdateService d project service tr2 with
        | (.err e, tr3) =>
          (.err ("failed to update service " ++ service.Name ++
            " due to image change: " ++ e), tr3)
        | (.panic, tr3) => (.panic, tr3)
        | (.ok _, tr3) => (.ok (), tr3)
      else
        match serviceChanged d project service tr2 with
        | (.err e, tr3) =>
          (.err ("failed to check if service " ++ service.Name ++ " has changed: " ++ e), tr3)
        | (.panic, tr3) => (.panic, tr3)
        | (.ok changed, tr3) =>
          if changed then
            match UpdateService d project service tr3 with
            | (.err e, tr4) =>
              (.err ("failed to update service " ++ service.Name ++
                " due to config change: " ++ e), tr4)
            | (.panic, tr4) => (.panic, tr4)
            | (.ok _, tr4) => (.ok (), tr4)
          else (.ok (), tr3)

def createVolume (d : Deployment) (project volume : String) (tr : Trace) : Res Unit × Trace :=
  let volumeName := project ++ "-" ++ volume
  match runCommand d "docker" ["volume", "inspect", volumeName] tr with
  | (.ok _, tr1) => (.ok (), tr1)
  | (_, tr1) =>
    match runCommand d "docker" ["volume", "create", volumeName] tr1 with
    | (.err e, tr2) => (.err ("failed to create volume: " ++ e), tr2)
    | (.panic, tr2) => (.panic, tr2)
    | (.ok _, tr2) => (.ok (), tr2)

/-! ## Predicates used to state the properties -/

/-- A poll result that reads healthy: the command succeeded and its output
trims to `healthy`. -/
def readsHealthy : ExecResult → Bool
  | .ok output => trimSpace output = "healthy"
  | _ => false

/-- Result of the poll number `k` (from 0) of `container` when polling starts
after the commands `tr`: every earlier poll is in the history. -/
def pollHealthy (d : Deployment) (container : String) (tr : Trace) (k : Nat) : Bool :=
  readsHealthy (d.executor (tr ++ List.replicate k (healthPoll container)) (healthPoll container))

/-- The commands a call issued: those of `after` that follow `before`. -/
def issued (before after : Trace) : List Cmd := after.drop before.length

/-- Commands `docker run ...`. -/
def isRunCmd (c : Cmd) : Bool := c.take 2 == ["docker", "run"]

/-- Commands `docker network ...` (connect, disconnect). -/
def isNetworkCmd (c : Cmd) : Bool := c.take 2 == ["docker", "network"]

/-- Commands `docker stop ...`. -/
def isStopCmd (c : Cmd) : Bool := c.take 2 == ["docker", "stop"]

/-- Commands `docker rm ...`. -/
def isRmCmd (c : Cmd) : Bool := c.take 2 == ["docker", "rm"]

/-- Commands `docker rename ...`. -/
def isRenameCmd (c : Cmd) : Bool := c.take 2 == ["docker", "rename"]

/-- The read-only commands: `docker pull`, `docker images`, `docker ps` and
`docker inspect`. -/
def isReadOnly (c : Cmd) : Bool :=
  c.take 2 == ["docker", "pull"] || c.take 2 == ["docker", "images"] ||
  c.take 2 == ["docker", "ps"] || c.take 2 == ["docker", "inspect"]

/-- The launch command of a container called `name` with alias `name` on
network `project`; `rest` holds the remaining arguments. -/
def launchCmd (name project : String) (rest : List String) : Cmd :=
  "docker" :: "run" :: "-d" :: "--name" :: name :: "--network" :: project ::
    "--network-alias" :: name :: rest

/-- The arguments of the launch command after name, network and alias, given
the `-v` arguments `vargs` and the configuration hash: environment, volumes,
health probe, forwards, hash label, image. -/
def launchRest (d : Deployment) (service : Service) (vargs : List String) (hash : String) :
    List String :=
  envArgs service.EnvVars ++ vargs ++ healthArgs d service ++ forwardArgs service.Forwards ++
    ["--label", "ftl.config-hash=" ++ hash, service.Image]

/-- The error `runCommand` reports for an answer of the executor: the
executor's own error text behind a fixed prefix; `none` for a success. -/
def commandError : ExecResult → Option String
  | .ok _ => none
  | .runErr e => some ("failed to run command: " ++ e)
  | .readErr r =>
    some ("failed to read command output: " ++ r ++ " (original error: %!w(<nil>))")

/-- The two commands of `pullImage`. -/
def pullCmds (imageName : String) : List Cmd :=
  [["docker", "pull", imageName],
   ["docker", "images", "--no-trunc", "--format=\x7b\x7b.ID\x7d\x7d", imageName]]

/-- The trace `tr1` extends `tr` by commands that all satisfy `P`. -/
def Extends (P : Cmd → Prop) (tr tr1 : Trace) : Prop :=
  ∃ ext, tr1 = tr ++ ext ∧ ∀ c ∈ ext, P c

/-- An executor whose first poll reads `starting` and whose second reads
`healthy`.  Here and on the hosts below `seconds` truncates towards zero, which
is `int(d.Seconds())` on the whole numbers of seconds these hosts are used
with. -/
def pollDeployment : Deployment where
  executor := fun tr _ => if tr.length = 1 then .ok " healthy\n" else .ok "starting"
  hash := fun _ => .ok "h"
  seconds := fun x => Int.tdiv x 1000000000
  unmarshal := fun _ => none

/-- The `docker inspect` commands of the scan, one per container ID. -/
def inspectCmds (ids : List String) : List Cmd :=
  ids.map (fun cid => ["docker", "inspect", cid])

/-- The executor's answer to the inspection of the listed container number `i`
(from 0) during a scan that starts after the commands `tr`: the earlier
containers of the listing were inspected before. -/
def inspectResult (d : Deployment) (tr : Trace) (ids : List String) (i : Nat) : ExecResult :=
  d.executor (tr ++ inspectCmds (ids.take i)) ["docker", "inspect", ids.getD i ""]

/-- The inspection result `r` succeeds, parses to a non-empty array, and its
first record `info` has `service` among its aliases on `network`. -/
def HoldsAlias (d : Deployment) (service network : String) (r : ExecResult)
    (info : containerInfo) : Prop :=
  ∃ out rest entry, r = .ok out ∧ d.unmarshal (trimSpace out) = some (info :: rest) ∧
    info.Networks.lookup network = some entry ∧ service ∈ entry.Aliases

/-- Computable form of `HoldsAlias`: the record found in an inspection result. -/
def aliasHolder (d : Deployment) (service network : String) (r : ExecResult) :
    Option containerInfo :=
  match r with
  | .ok out =>
    match d.unmarshal (trimSpace out) with
    | some (info :: _) =>
      match info.Networks.lookup network with
      | some entry => if entry.Aliases.contains service then some info else none
      | none => none
    | _ => none
  | _ => none

/-- The listing command of `getContainerInfo`. -/
def psCmd (network : String) : Cmd :=
  ["docker", "ps", "-aq", "--filter", "network=" ++ network]

/-- The container IDs `getContainerInfo` reads from the output of `docker ps`. -/
def listing (out : String) : List String := fields (trimSpace out)

/-- The trace after a lookup on `network` that started after `tr`, read the
listing `out` and stopped at the listed container number `i` (from 0). -/
def afterLookup (tr : Trace) (network out : String) (i : Nat) : Trace :=
  tr ++ [psCmd network] ++ inspectCmds ((listing out).take (i + 1))

/-- The mutating commands of a list: those that are not read-only, in order. -/
def mutating (l : List Cmd) : List Cmd := l.filter (fun c => !isReadOnly c)

/-- The continuation of `UpdateService` once the shadow passed the health
verifier: `switchTraffic` followed, when it succeeds, by `cleanup`. -/
def cutover (d : Deployment) (project service : String) (tr : Trace) : Res Unit × Trace :=
  match switchTraffic d project service tr with
  | (.err e, tr4) => (.err ("failed to switch traffic for " ++ service ++ ": " ++ e), tr4)
  | (.panic, tr4) => (.panic, tr4)
  | (.ok oldContID, tr4) =>
    match cleanup d oldContID service tr4 with
    | (.err e, tr5) => (.err ("failed to cleanup for " ++ service ++ ": " ++ e), tr5)
    | (.panic, tr5) => (.panic, tr5)
    | (.ok _, tr5) => (.ok (), tr5)

/-- The alias model of the project network: the aliases each container holds.
A container is named by the reference the commands use for it: its ID for the
old container, its name for the shadow. -/
abbrev Net := String → List String

/-- The alias model of one command on the network `project`.  A successful
`docker network disconnect project c` removes the aliases of `c`, a successful
`docker network connect --alias a project c` adds the alias `a` to `c`; a
failed command, or any other command, changes nothing. -/
def netStep (project : String) (net : Net) (cmd : Cmd) (r : ExecResult) : Net :=
  match r with
  | .ok _ =>
    match cmd with
    | ["docker", "network", "disconnect", n, c] =>
      if n = project then Function.update net c [] else net
    | ["docker", "network", "connect", "--alias", a, n, c] =>
      if n = project then Function.update net c (a :: net c) else net
    | _ => net
  | _ => net

/-- The network after the commands `cmds`, issued one after the other from the
history `hist`, each with the result the executor gave it. -/
def replayNet (d : Deployment) (project : String) : Trace → List Cmd → Net → Net
  | _, [], net => net
  | hist, c :: cs, net =>
    replayNet d project (hist ++ [c]) cs (netStep project net c (d.executor hist c))

/-! ## A concrete project, used to evaluate the statements -/

/-- The service `api` of project `shop`. -/
def demoService : Service where
  Name := "api"
  Image := "img:v2"
  Port := 8080
  Volumes := ["data:/var/data", "/srv/conf:/conf"]
  EnvVars := [("MODE", "prod")]
  Forwards := []
  HealthCheck := some ⟨"/health", 1000000000, 1000000000, 3⟩

/-- The running container `c2`, holding the alias `api` on network `shop`. -/
def runningInfo (image label : String) : containerInfo where
  ID := "c2"
  ConfigImage := "img:v1"
  ConfigEnv := []
  ConfigLabels := [("ftl.config-hash", label)]
  Image := image
  Networks := [("shop", ⟨["api", "c2"]⟩)]
  Binds := []

/-- A retired container `c1` that no longer holds the alias `api`. -/
def staleInfo : containerInfo where
  ID := "c1"
  ConfigImage := "img:v0"
  ConfigEnv := []
  ConfigLabels := []
  Image := "sha256:v0"
  Networks := [("shop", ⟨["api_old"]⟩)]
  Binds := []

/-- A host on which every command succeeds: the pulled image has ID `sha256:v2`,
network `shop` lists `c1` and `c2`, the running container `c2` has image ID
`image` and hash label `label`, and a health poll reads `health`. -/
def demoDeployment (image label health : String) : Deployment where
  executor := fun _ c =>
    if c.take 2 = ["docker", "images"] then .ok "sha256:v2\n"
    else if c.take 2 = ["docker", "ps"] then .ok "c1\nc2\n"
    else if c = ["docker", "inspect", "c1"] then .ok "J1"
    else if c = ["docker", "inspect", "c2"] then .ok "J2"
    else if c.take 2 = ["docker", "inspect"] then .ok health
    else .ok ""
  hash := fun _ => .ok "h2"
  seconds := fun x => Int.tdiv x 1000000000
  unmarshal := fun s =>
    if s = "J1" then some [staleInfo]
    else if s = "J2" then some [runningInfo image label]
    else none

/-- The commands of the lookup on the demo host. -/
def demoLookup : List Cmd :=
  [psCmd "shop", ["docker", "inspect", "c1"], ["docker", "inspect", "c2"]]

/-- The arguments of the launch of `demoService` after name, network and alias. -/
def demoLaunchArgs : List String :=
  ["-e", "MODE=prod", "-v", "shop-data:/var/data", "-v", "/srv/conf:/conf",
   "--health-cmd", "curl -sf http://localhost:8080/health || exit 1",
   "--health-interval", "1s", "--health-retries", "3", "--health-timeout", "1s",
   "--label", "ftl.config-hash=h2", "img:v2"]

/-- The alias state of network `shop` before a cutover of `api`: the running
container `c2` holds `api`, the shadow holds `api_new`. -/
def demoNet : Net := fun c =>
  if c = "c2" then ["api", "c2"] else if c = "api_new" then ["api_new"] else []

/-- The demo host, except that `docker inspect c1` fails: the container was
removed after it was listed. -/
def flakyHost : Deployment where
  executor := fun tr c =>
    if c = ["docker", "inspect", "c1"] then .runErr "No such container: c1"
    else (demoDeployment "sha256:v2" "h2" "healthy").executor tr c
  hash := fun _ => .ok "h2"
  seconds := fun x => Int.tdiv x 1000000000
  unmarshal := (demoDeployment "sha256:v2" "h2" "healthy").unmarshal

/-- The demo host, except that `docker ps` fails. -/
def psDownHost : Deployment where
  executor := fun tr c =>
    if c.take 2 = ["docker", "ps"] then .runErr "connection lost"
    else (demoDeployment "sha256:v2" "h2" "healthy").executor tr c
  hash := fun _ => .ok "h2"
  seconds := fun x => Int.tdiv x 1000000000
  unmarshal := (demoDeployment "sha256:v2" "h2" "healthy").unmarshal

/-- A host without volumes: `docker volume inspect` fails, every other command
succeeds. -/
def freshHost : Deployment where
  executor := fun _ c =>
    if c.take 3 = ["docker", "volume", "inspect"] then .runErr "no such volume" else .ok ""
  hash := fun _ => .ok "h2"
  seconds := fun x => Int.tdiv x 1000000000
  unmarshal := fun _ => none

/-- The service `api` with the single volume `9data`, a valid volume name that
starts with a digit. -/
def digitVolumeService : Service where
  Name := "api"
  Image := "img:v2"
  Port := 8080
  Volumes := ["9data:/var/data"]
  EnvVars := []
  Forwards := []
  HealthCheck := none

/-! ## Library facts -/

theorem dropTrailingSpace_idem (l : List Char) :
    dropTrailingSpace (dropTrailingSpace l) = dropTrailingSpace l := by
  induction l with
  | nil => rfl
  | cons c cs ih =>
    cases h : dropTrailingSpace cs with
    | nil =>
      by_cases hc : isSpace c = true
      · simp [dropTrailingSpace, h, hc]
      · simp [dropTrailingSpace, h, hc]
    | cons r rs =>
      rw [h] at ih
      have e : dropTrailingSpace (c :: cs) = c :: r :: rs := by
        rw [dropTrailingSpace, h]
      rw [e, dropTrailingSpace, ih]

theorem dropTrailingSpace_head (c : Char) (cs : List Char) (hc : isSpace c = false) :
    ∃ r, dropTrailingSpace (c :: cs) = c :: r := by
  cases h : dropTrailingSpace cs with
  | nil => exact ⟨[], by simp [dropTrailingSpace, h, hc]⟩
  | cons r rs => exact ⟨r :: rs, by simp [dropTrailingSpace, h]⟩

theorem dropWhile_isSpace_head (l : List Char) :
    l.dropWhile isSpace = [] ∨ ∃ c cs, l.dropWhile isSpace = c :: cs ∧ isSpace c = false := by
  induction l with
  | nil => exact Or.inl rfl
  | cons c cs ih =>
    by_cases hc : isSpace c = true
    · simpa [List.dropWhile, hc] using ih
    · exact Or.inr ⟨c, cs, by simp [List.dropWhile, hc], by simpa using hc⟩

/-- The function `strings.TrimSpace` is idempotent. -/
theorem trimSpace_idem (s : String) : trimSpace (trimSpace s) = trimSpace s := by
  unfold trimSpace
  rcases dropWhile_isSpace_head s.data with h | ⟨c, cs, h, hc⟩
  · simp [h, dropTrailingSpace, List.dropWhile]
  · rw [h]
    obtain ⟨r, hr⟩ := dropTrailingSpace_head c cs hc
    have h2 : List.dropWhile isSpace (dropTrailingSpace (c :: cs)) = dropTrailingSpace (c :: cs) := by
      rw [hr]; simp [List.dropWhile, hc]
    simp only [h2, dropTrailingSpace_idem]

/-! ## The command executor -/

theorem runCommand_snd (d : Deployment) (c : String) (a : List String) (tr : Trace) :
    (runCommand d c a tr).2 = tr ++ [c :: a] := by
  unfold runCommand; split <;> rfl

/-- The two outcomes of `runCommand`: the trimmed output, or an error; the
command is recorded either way and `runCommand` never panics. -/
theorem runCommand_cases (d : Deployment) (c : String) (a : List String) (tr : Trace) :
    (∃ out, d.executor tr (c :: a) = .ok out ∧
      runCommand d c a tr = (.ok (trimSpace out), tr ++ [c :: a])) ∨
    (∃ e, (∀ out, d.executor tr (c :: a) ≠ .ok out) ∧
      runCommand d c a tr = (.err e, tr ++ [c :: a])) := by
  unfold runCommand
  cases h : d.executor tr (c :: a) with
  | ok out => exact Or.inl ⟨out, rfl, rfl⟩
  | runErr e => exact Or.inr ⟨_, by simp, rfl⟩
  | readErr e => exact Or.inr ⟨_, by simp, rfl⟩

/-! ## Health verifier -/

theorem pollHealthy_shift (d : Deployment) (c : String) (tr : Trace) (k : Nat) :
    pollHealthy d c (tr ++ [healthPoll c]) k = pollHealthy d c tr (k + 1) := by
  simp [pollHealthy, List.replicate_succ]

/-- One iteration of the polling loop. -/
theorem healthLoop_succ (d : Deployment) (c : String) (n : Nat) (tr : Trace) :
    healthLoop d c (n + 1) tr =
      if pollHealthy d c tr 0 = true then (.ok (), tr ++ [healthPoll c])
      else healthLoop d c n (tr ++ [healthPoll c]) := by
  have hp : healthPoll c =
      "docker" :: ["inspect", "--format=\x7b\x7b.State.Health.Status\x7d\x7d", c] := rfl
  rcases runCommand_cases d "docker"
      ["inspect", "--format=\x7b\x7b.State.Health.Status\x7d\x7d", c] tr with
    ⟨out, hex, h⟩ | ⟨e, hex, h⟩
  · rw [healthLoop, h]
    simp only [pollHealthy, List.replicate_zero, List.append_nil, hp, hex, readsHealthy,
      trimSpace_idem, decide_eq_true_eq]
  · rw [healthLoop, h]
    have : pollHealthy d c tr 0 = false := by
      simp only [pollHealthy, List.replicate_zero, List.append_nil, hp]
      cases hr : d.executor tr
          ("docker" :: ["inspect", "--format=\x7b\x7b.State.Health.Status\x7d\x7d", c]) with
      | ok out => exact absurd hr (hex out)
      | runErr e => rfl
      | readErr e => rfl
    simp [this, hp]

theorem healthLoop_none (d : Deployment) (c : String) (n : Nat) (tr : Trace)
    (h : ∀ k, k < n → pollHealthy d c tr k = false) :
    healthLoop d c n tr =
      (.err "container failed to become healthy", tr ++ List.replicate n (healthPoll c)) := by
  induction n generalizing tr with
  | zero => simp [healthLoop]
  | succ n ih =>
    rw [healthLoop_succ, h 0 (Nat.succ_pos n)]
    simp only [Bool.false_eq_true, if_false]
    rw [ih (tr ++ [healthPoll c]) (fun k hk => by
      rw [pollHealthy_shift]; exact h (k + 1) (Nat.succ_lt_succ hk))]
    simp [List.replicate_succ]

theorem healthLoop_first (d : Deployment) (c : String) (n : Nat) (tr : Trace) (k : Nat)
    (hk : k < n) (hh : pollHealthy d c tr k = true)
    (hlt : ∀ j, j < k → pollHealthy d c tr j = false) :
    healthLoop d c n tr = (.ok (), tr ++ List.replicate (k + 1) (healthPoll c)) := by
  induction n generalizing tr k with
  | zero => exact absurd hk (Nat.not_lt_zero k)
  | succ n ih =>
    rw [healthLoop_succ]
    cases k with
    | zero => simp [hh]
    | succ k =>
      rw [hlt 0 (Nat.succ_pos k)]
      simp only [Bool.false_eq_true, if_false]
      rw [ih (tr ++ [healthPoll c]) k (Nat.lt_of_succ_lt_succ hk)
        (by rw [pollHealthy_shift]; exact hh)
        (fun j hj => by rw [pollHealthy_shift]; exact hlt (j + 1) (Nat.succ_lt_succ hj))]
      simp [List.replicate_succ]

/-- C6: `performHealthChecks` succeeds at once and issues nothing when the
health-check spec is nil.  Otherwise, with `n = max Retries 0` and poll `k` the
executor's answer to the `docker inspect` poll after `k` earlier polls: it
succeeds iff one of the polls `0 .. n-1` succeeds with output trimming to
`healthy`; it then stops right after the first such poll `k`, having issued
`k + 1` polls; when none is healthy it fails after exactly `n` polls; and with
`Retries ≤ 0` it fails without polling. -/
theorem performHealthChecks_semantics (d : Deployment) (container : String) (tr : Trace) :
    performHealthChecks d container none tr = (.ok (), tr) ∧
    ∀ hc : HealthCheck,
      ((performHealthChecks d container (some hc) tr).1 = .ok () ↔
        ∃ k, k < hc.Retries.toNat ∧ pollHealthy d container tr k = true) ∧
      (∀ k, k < hc.Retries.toNat → pollHealthy d container tr k = true →
        (∀ j, j < k → pollHealthy d container tr j = false) →
        performHealthChecks d container (some hc) tr =
          (.ok (), tr ++ List.replicate (k + 1) (healthPoll container))) ∧
      ((∀ k, k < hc.Retries.toNat → pollHealthy d container tr k = false) →
        performHealthChecks d container (some hc) tr =
          (.err "container failed to become healthy",
            tr ++ List.replicate hc.Retries.toNat (healthPoll container))) ∧
      (hc.Retries ≤ 0 →
        performHealthChecks d container (some hc) tr =
          (.err "container failed to become healthy", tr)) := by
  refine ⟨rfl, fun hc => ⟨?_, ?_, ?_, ?_⟩⟩
  · constructor
    · intro hok
      by_contra hno
      have hall : ∀ k, k < hc.Retries.toNat → pollHealthy d container tr k = false := by
        intro k hk
        cases hp : pollHealthy d container tr k with
        | false => rfl
        | true => exact absurd ⟨k, hk, hp⟩ hno
      have := healthLoop_none d container hc.Retries.toNat tr hall
      simp [performHealthChecks, this] at hok
    · intro hex
      have hmin : ∀ {m : ℕ}, m < Nat.find hex →
          ¬ (m < hc.Retries.toNat ∧ pollHealthy d container tr m = true) :=
        fun hm => Nat.find_min hex hm
      obtain ⟨hk, hp⟩ := Nat.find_spec hex
      have hlt : ∀ j, j < Nat.find hex → pollHealthy d container tr j = false := by
        intro j hj
        cases hpj : pollHealthy d container tr j with
        | false => rfl
        | true => exact absurd ⟨Nat.lt_trans hj hk, hpj⟩ (hmin hj)
      simp [performHealthChecks, healthLoop_first d container _ tr _ hk hp hlt]
  · intro k hk hp hlt
    exact healthLoop_first d container _ tr k hk hp hlt
  · intro hall
    exact healthLoop_none d container _ tr hall
  · intro hle
    have h0 : hc.Retries.toNat = 0 := Int.toNat_eq_zero.mpr hle
    simp [performHealthChecks, h0, healthLoop]

/-- C6 at a concrete executor: first reading `starting`, second `healthy`,
three retries: success after exactly two polls. -/
theorem performHealthChecks_semantics_witness :
    performHealthChecks pollDeployment "api_new" (some ⟨"/health", 1000000000, 1000000000, 3⟩) [] =
      (.ok (), [healthPoll "api_new", healthPoll "api_new"]) :=
  ((performHealthChecks_semantics pollDeployment "api_new" []).2
    ⟨"/health", 1000000000, 1000000000, 3⟩).2.1 1 (by decide) (by decide) (by decide)

/-! ## Traces -/

theorem issued_append (tr ext : Trace) : issued tr (tr ++ ext) = ext := by
  simp [issued]

theorem Extends.refl (P : Cmd → Prop) (tr : Trace) : Extends P tr tr :=
  ⟨[], by simp, by simp⟩

theorem Extends.trans {P : Cmd → Prop} {a b c : Trace} (h1 : Extends P a b)
    (h2 : Extends P b c) : Extends P a c := by
  obtain ⟨e1, rfl, p1⟩ := h1
  obtain ⟨e2, rfl, p2⟩ := h2
  refine ⟨e1 ++ e2, by simp, ?_⟩
  intro x hx
  rcases List.mem_append.mp hx with h | h
  · exact p1 x h
  · exact p2 x h

theorem Extends.mono {P Q : Cmd → Prop} {a b : Trace} (h : Extends P a b)
    (hpq : ∀ c, P c → Q c) : Extends Q a b := by
  obtain ⟨e, rfl, p⟩ := h
  exact ⟨e, rfl, fun c hc => hpq c (p c hc)⟩

theorem Extends.issued {P : Cmd → Prop} {a b : Trace} (h : Extends P a b) :
    ∀ c ∈ issued a b, P c := by
  obtain ⟨e, rfl, p⟩ := h
  simpa [issued_append] using p

theorem runCommand_extends (P : Cmd → Prop) (d : Deployment) (c : String) (a : List String)
    (tr : Trace) (h : P (c :: a)) : Extends P tr (runCommand d c a tr).2 :=
  ⟨[c :: a], runCommand_snd d c a tr, by simpa using h⟩

theorem pullImage_extends (d : Deployment) (img : String) (tr : Trace) :
    Extends (fun c => c ∈ pullCmds img) tr (pullImage d img tr).2 := by
  unfold pullImage
  rcases runCommand_cases d "docker" ["pull", img] tr with ⟨out, _, h⟩ | ⟨e, _, h⟩
  · simp only [h]
    rcases runCommand_cases d "docker"
        ["images", "--no-trunc", "--format=\x7b\x7b.ID\x7d\x7d", img]
        (tr ++ ["docker" :: ["pull", img]]) with ⟨out2, _, h2⟩ | ⟨e2, _, h2⟩
    · simp only [h2]
      exact ⟨pullCmds img, by simp [pullCmds], by simp⟩
    · simp only [h2]
      exact ⟨pullCmds img, by simp [pullCmds], by simp⟩
  · simp only [h]
    exact ⟨[["docker", "pull", img]], rfl, by simp [pullCmds]⟩

/-- A successful `pullImage` issued exactly `docker pull` and `docker images`. -/
theorem pullImage_ok (d : Deployment) (img : String) (tr tr1 : Trace) (h : String)
    (hp : pullImage d img tr = (.ok h, tr1)) : tr1 = tr ++ pullCmds img := by
  unfold pullImage at hp
  rcases runCommand_cases d "docker" ["pull", img] tr with ⟨out, _, h1⟩ | ⟨e, _, h1⟩
  · simp only [h1] at hp
    rcases runCommand_cases d "docker"
        ["images", "--no-trunc", "--format=\x7b\x7b.ID\x7d\x7d", img]
        (tr ++ ["docker" :: ["pull", img]]) with ⟨out2, _, h2⟩ | ⟨e2, _, h2⟩
    · simp only [h2] at hp
      simp only [Prod.mk.injEq] at hp
      rw [← hp.2]; simp [pullCmds]
    · simp only [h2] at hp
      simp at hp
  · simp only [h1] at hp
    simp at hp

theorem scanContainers_extends (d : Deployment) (service network : String) (ids : List String)
    (tr : Trace) :
    Extends (fun c => ∃ cid, c = ["docker", "inspect", cid]) tr
      (scanContainers d service network ids tr).2 := by
  induction ids generalizing tr with
  | nil => exact Extends.refl _ _
  | cons cid rest ih =>
    have hstep : Extends (fun c => ∃ cid, c = ["docker", "inspect", cid]) tr
        (tr ++ ["docker" :: ["inspect", cid]]) := ⟨[["docker", "inspect", cid]], rfl, by simp⟩
    have hrest := Extends.trans hstep (ih (tr ++ ["docker" :: ["inspect", cid]]))
    unfold scanContainers
    rcases runCommand_cases d "docker" ["inspect", cid] tr with ⟨out, _, h⟩ | ⟨e, _, h⟩
    · simp only [h]
      split
      · split
        · split
          · exact hstep
          · exact hrest
        · exact hrest
      · exact hrest
    · simp only [h]
      exact hrest

theorem getContainerInfo_extends (d : Deployment) (service network : String) (tr : Trace) :
    Extends (fun c => isReadOnly c = true) tr (getContainerInfo d service network tr).2 := by
  have hps : Extends (fun c => isReadOnly c = true) tr
      (tr ++ ["docker" :: ["ps", "-aq", "--filter", "network=" ++ network]]) :=
    ⟨[_], rfl, by simp [isReadOnly]⟩
  unfold getContainerInfo
  rcases runCommand_cases d "docker" ["ps", "-aq", "--filter", "network=" ++ network] tr with
    ⟨out, _, h⟩ | ⟨e, _, h⟩
  · simp only [h]
    refine Extends.trans hps (Extends.mono (scanContainers_extends d service network _ _) ?_)
    rintro c ⟨cid, rfl⟩
    simp [isReadOnly]
  · simp only [h]
    exact hps

theorem healthLoop_extends (d : Deployment) (c : String) (n : Nat) (tr : Trace) :
    Extends (fun x => x = healthPoll c) tr (healthLoop d c n tr).2 := by
  induction n generalizing tr with
  | zero => exact Extends.refl _ _
  | succ n ih =>
    have hstep : Extends (fun x => x = healthPoll c) tr (tr ++ [healthPoll c]) :=
      ⟨[healthPoll c], rfl, by simp⟩
    rw [healthLoop_succ]
    split
    · exact hstep
    · exact Extends.trans hstep (ih _)

theorem performHealthChecks_extends (d : Deployment) (c : String) (hc : Option HealthCheck)
    (tr : Trace) : Extends (fun x => x = healthPoll c) tr (performHealthChecks d c hc tr).2 := by
  cases hc with
  | none => exact Extends.refl _ _
  | some h => exact healthLoop_extends d c _ tr

/-- The launch either issues nothing (and does not succeed) or issues exactly
one `docker run` naming the container and its alias `Name ++ suffix`. -/
theorem startContainer_cases (d : Deployment) (project : String) (service : Service)
    (suffix : String) (tr : Trace) :
    ((startContainer d project service suffix tr).2 = tr ∧
      (startContainer d project service suffix tr).1 ≠ .ok ()) ∨
    ∃ rest, (startContainer d project service suffix tr).2 =
      tr ++ [launchCmd (service.Name ++ suffix) project rest] := by
  unfold startContainer
  cases hv : volumeArgs project service.Volumes with
  | none => exact Or.inl ⟨rfl, by simp⟩
  | some vargs =>
    cases hh : d.hash service with
    | error e => exact Or.inl ⟨rfl, by simp⟩
    | ok hash =>
      refine Or.inr ⟨envArgs service.EnvVars ++ vargs ++ healthArgs d service ++
        forwardArgs service.Forwards ++ ["--label", "ftl.config-hash=" ++ hash] ++
        [service.Image], ?_⟩
      simp only []
      rcases runCommand_cases d "docker"
        (["run", "-d", "--name", service.Name ++ suffix, "--network", project,
          "--network-alias", service.Name ++ suffix] ++ envArgs service.EnvVars ++ vargs ++
          healthArgs d service ++ forwardArgs service.Forwards ++
          ["--label", "ftl.config-hash=" ++ hash] ++ [service.Image]) tr with
        ⟨out, _, h⟩ | ⟨e, _, h⟩
      · simp only [h]; simp [launchCmd]
      · simp only [h]; simp [launchCmd]

theorem startContainer_ok (d : Deployment) (project : String) (service : Service)
    (suffix : String) (tr tr1 : Trace)
    (h : startContainer d project service suffix tr = (.ok (), tr1)) :
    ∃ rest, tr1 = tr ++ [launchCmd (service.Name ++ suffix) project rest] := by
  rcases startContainer_cases d project service suffix tr with ⟨_, h2⟩ | ⟨rest, h2⟩
  · rw [h] at h2; exact absurd rfl h2
  · rw [h] at h2; exact ⟨rest, h2⟩

theorem startContainer_extends (d : Deployment) (project : String) (service : Service)
    (suffix : String) (tr : Trace) :
    Extends (fun c => ∃ rest, c = launchCmd (service.Name ++ suffix) project rest) tr
      (startContainer d project service suffix tr).2 := by
  rcases startContainer_cases d project service suffix tr with ⟨h2, _⟩ | ⟨rest, h2⟩
  · rw [h2]; exact Extends.refl _ _
  · rw [h2]; exact ⟨[_], rfl, by simp⟩

theorem runCmds_extends (d : Deployment) (cmds : List Cmd) (tr : Trace) :
    Extends (fun c => c ∈ cmds) tr (runCmds d cmds tr).2 := by
  induction cmds generalizing tr with
  | nil => exact Extends.refl _ _
  | cons cmd rest ih =>
    cases cmd with
    | nil => exact Extends.refl _ _
    | cons command args =>
      have hstep : Extends (fun c => c ∈ (command :: args) :: rest) tr
          (tr ++ [command :: args]) := ⟨[command :: args], rfl, by simp⟩
      unfold runCmds
      rcases runCommand_cases d command args tr with ⟨out, _, h⟩ | ⟨e, _, h⟩
      · simp only [h]
        exact Extends.trans hstep (Extends.mono (ih _) (fun c hc => List.mem_cons_of_mem _ hc))
      · simp only [h]
        exact hstep

/-! ## Results in terms of the executor's answers -/

theorem runCommand_ok (d : Deployment) (c : String) (a : List String) (tr : Trace)
    (out : String) (h : d.executor tr (c :: a) = .ok out) :
    runCommand d c a tr = (.ok (trimSpace out), tr ++ [c :: a]) := by
  unfold runCommand
  rw [h]

theorem runCommand_failed (d : Deployment) (c : String) (a : List String) (tr : Trace)
    (e : String) (h : commandError (d.executor tr (c :: a)) = some e) :
    runCommand d c a tr = (.err e, tr ++ [c :: a]) := by
  unfold runCommand
  cases hx : d.executor tr (c :: a) with
  | ok out => rw [hx] at h; simp [commandError] at h
  | runErr x =>
    rw [hx] at h
    simp only [commandError, Option.some.injEq] at h
    simp only [h]
  | readErr x =>
    rw [hx] at h
    simp only [commandError, Option.some.injEq] at h
    simp only [h]

/-- The image ID `pullImage` returns is the trimmed output of `docker images`. -/
theorem pullImage_of_answers (d : Deployment) (img : String) (tr : Trace) (o1 o2 : String)
    (h1 : d.executor tr ["docker", "pull", img] = .ok o1)
    (h2 : d.executor (tr ++ [["docker", "pull", img]])
      ["docker", "images", "--no-trunc", "--format=\x7b\x7b.ID\x7d\x7d", img] = .ok o2) :
    pullImage d img tr = (.ok (trimSpace o2), tr ++ pullCmds img) := by
  unfold pullImage
  simp only [runCommand_ok d "docker" ["pull", img] tr o1 h1,
    runCommand_ok d "docker" ["images", "--no-trunc", "--format=\x7b\x7b.ID\x7d\x7d", img]
      (tr ++ [["docker", "pull", img]]) o2 h2, trimSpace_idem]
  simp [pullCmds]

theorem pullImage_pull_failed (d : Deployment) (img : String) (tr : Trace) (e : String)
    (h1 : commandError (d.executor tr ["docker", "pull", img]) = some e) :
    pullImage d img tr = (.err e, tr ++ [["docker", "pull", img]]) := by
  unfold pullImage
  simp only [runCommand_failed d "docker" ["pull", img] tr e h1]

theorem pullImage_images_failed (d : Deployment) (img : String) (tr : Trace) (o1 e : String)
    (h1 : d.executor tr ["docker", "pull", img] = .ok o1)
    (h2 : commandError (d.executor (tr ++ [["docker", "pull", img]])
      ["docker", "images", "--no-trunc", "--format=\x7b\x7b.ID\x7d\x7d", img]) = some e) :
    pullImage d img tr = (.err e, tr ++ pullCmds img) := by
  unfold pullImage
  simp only [runCommand_ok d "docker" ["pull", img] tr o1 h1,
    runCommand_failed d "docker" ["images", "--no-trunc", "--format=\x7b\x7b.ID\x7d\x7d", img]
      (tr ++ [["docker", "pull", img]]) e h2]
  simp [pullCmds]

theorem launchCmd_eq (d : Deployment) (project : String) (service : Service)
    (suffix : String) (vargs : List String) (hash : String) :
    launchCmd (service.Name ++ suffix) project (launchRest d service vargs hash) =
      "docker" :: (["run", "-d", "--name", service.Name ++ suffix, "--network", project,
        "--network-alias", service.Name ++ suffix] ++ envArgs service.EnvVars ++ vargs ++
        healthArgs d service ++ forwardArgs service.Forwards ++
        ["--label", "ftl.config-hash=" ++ hash] ++ [service.Image]) := by
  simp [launchCmd, launchRest]

/-- When the volume bindings are non-empty strings and the hash is computed,
`startContainer` issues exactly the launch command, whatever its result. -/
theorem startContainer_issues (d : Deployment) (project : String) (service : Service)
    (suffix : String) (tr : Trace) (vargs : List String) (hash : String)
    (hv : volumeArgs project service.Volumes = some vargs) (hh : d.hash service = .ok hash) :
    (startContainer d project service suffix tr).2 =
      tr ++ [launchCmd (service.Name ++ suffix) project (launchRest d service vargs hash)] := by
  rw [launchCmd_eq]
  unfold startContainer
  simp only [hv, hh]
  rcases runCommand_cases d "docker"
      (["run", "-d", "--name", service.Name ++ suffix, "--network", project,
        "--network-alias", service.Name ++ suffix] ++ envArgs service.EnvVars ++ vargs ++
        healthArgs d service ++ forwardArgs service.Forwards ++
        ["--label", "ftl.config-hash=" ++ hash] ++ [service.Image]) tr with
    ⟨out, _, h⟩ | ⟨e, _, h⟩
  · simp only [h]
  · simp only [h]

/-- The launch succeeds when the executor answers the launch command. -/
theorem startContainer_of_answer (d : Deployment) (project : String) (service : Service)
    (suffix : String) (tr : Trace) (vargs : List String) (hash out : String)
    (hv : volumeArgs project service.Volumes = some vargs) (hh : d.hash service = .ok hash)
    (hrun : d.executor tr
      (launchCmd (service.Name ++ suffix) project (launchRest d service vargs hash)) = .ok out) :
    startContainer d project service suffix tr =
      (.ok (), tr ++
        [launchCmd (service.Name ++ suffix) project (launchRest d service vargs hash)]) := by
  rw [launchCmd_eq] at hrun ⊢
  unfold startContainer
  simp only [hv, hh, runCommand_ok d "docker" _ tr out hrun]

theorem performHealthChecks_trace (d : Deployment) (c : String) (hc : Option HealthCheck)
    (tr : Trace) :
    ∃ k, (performHealthChecks d c hc tr).2 = tr ++ List.replicate k (healthPoll c) := by
  obtain ⟨ext, hext, p⟩ := performHealthChecks_extends d c hc tr
  exact ⟨ext.length, by rw [hext, List.eq_replicate_iff.mpr ⟨rfl, p⟩]; simp⟩

/-- After a successful pull, the trace of `InstallService` is that of the launch
followed by health polls only. -/
theorem InstallService_after_pull (d : Deployment) (project : String) (service : Service)
    (tr tr1 : Trace) (h : String) (hpull : pullImage d service.Image tr = (.ok h, tr1)) :
    ∃ k, (InstallService d project service tr).2 =
      (startContainer d project service "" tr1).2 ++
        List.replicate k (healthPoll service.Name) := by
  unfold InstallService
  simp only [hpull]
  rcases hs : startContainer d project service "" tr1 with ⟨r, t2⟩
  cases r with
  | err e => exact ⟨0, by simp⟩
  | panic => exact ⟨0, by simp⟩
  | ok u =>
    simp only []
    obtain ⟨k, hk⟩ := performHealthChecks_trace d service.Name service.HealthCheck t2
    refine ⟨k, ?_⟩
    rw [← hk]
    rcases hp : performHealthChecks d service.Name service.HealthCheck t2 with ⟨r3, t3⟩
    cases r3 <;> rfl

/-! ## Install path -/

theorem InstallService_extends (d : Deployment) (project : String) (service : Service)
    (tr : Trace) :
    Extends (fun c => isReadOnly c = true ∨ ∃ rest, c = launchCmd service.Name project rest) tr
      (InstallService d project service tr).2 := by
  have hro : ∀ c, c ∈ pullCmds service.Image →
      (isReadOnly c = true ∨ ∃ rest, c = launchCmd service.Name project rest) := by
    intro c hc
    simp only [pullCmds, List.mem_cons, List.mem_singleton, List.not_mem_nil, or_false] at hc
    rcases hc with rfl | rfl <;> simp [isReadOnly]
  have e1 := (pullImage_extends d service.Image tr).mono hro
  unfold InstallService
  split
  next e t1 heq => rw [heq] at e1; exact e1
  next t1 heq => rw [heq] at e1; exact e1
  next a t1 heq =>
    rw [heq] at e1
    have e2 := Extends.trans e1 ((startContainer_extends d project service "" t1).mono
      (fun c hc => Or.inr (by simpa using hc)))
    split
    next e t2 heq2 => rw [heq2] at e2; exact e2
    next t2 heq2 => rw [heq2] at e2; exact e2
    next a2 t2 heq2 =>
      rw [heq2] at e2
      have e3 := Extends.trans e2 ((performHealthChecks_extends d service.Name
        service.HealthCheck t2).mono (fun c hc => Or.inl (by rw [hc]; simp [isReadOnly, healthPoll])))
      simp only []
      split
      next e t3 heq3 => rw [heq3] at e3; exact e3
      next t3 heq3 => rw [heq3] at e3; exact e3
      next a3 t3 heq3 => rw [heq3] at e3; exact e3

/-- C8: every `docker run` that `InstallService` issues names the container and
its alias exactly `Name` on the project network, and `InstallService` never
issues `docker rm` or `docker stop`.  When the executor answers `docker pull`
and `docker images`, the volume bindings are non-empty and the hash is
computed, the commands `InstallService` issues are the pull, then the launch
`docker run -d --name Name --network project --network-alias Name ...`, then
health polls only.  When the launch command succeeds too: without a health
check `InstallService` returns success right after the launch; with a health
check none of whose `Retries` polls reads healthy it returns an error after
exactly those polls, the container left in place. -/
theorem InstallService_path (d : Deployment) (project : String) (service : Service)
    (tr0 : Trace) :
    (∀ c ∈ issued tr0 (InstallService d project service tr0).2,
      (isRunCmd c = true → ∃ rest, c = launchCmd service.Name project rest) ∧
      isRmCmd c = false ∧ isStopCmd c = false) ∧
    (∀ (o1 o2 : String) (vargs : List String) (hash : String),
      d.executor tr0 ["docker", "pull", service.Image] = .ok o1 →
      d.executor (tr0 ++ [["docker", "pull", service.Image]])
        ["docker", "images", "--no-trunc", "--format=\x7b\x7b.ID\x7d\x7d", service.Image] =
          .ok o2 →
      volumeArgs project service.Volumes = some vargs →
      d.hash service = .ok hash →
      (∃ k, (InstallService d project service tr0).2 =
        tr0 ++ pullCmds service.Image ++
          [launchCmd service.Name project (launchRest d service vargs hash)] ++
          List.replicate k (healthPoll service.Name)) ∧
      ∀ o3 : String,
        d.executor (tr0 ++ pullCmds service.Image)
          (launchCmd service.Name project (launchRest d service vargs hash)) = .ok o3 →
        (service.HealthCheck = none →
          InstallService d project service tr0 =
            (.ok (), tr0 ++ pullCmds service.Image ++
              [launchCmd service.Name project (launchRest d service vargs hash)])) ∧
        (∀ hc : HealthCheck, service.HealthCheck = some hc →
          (∀ k, k < hc.Retries.toNat →
            pollHealthy d service.Name (tr0 ++ pullCmds service.Image ++
              [launchCmd service.Name project (launchRest d service vargs hash)]) k = false) →
          InstallService d project service tr0 =
            (.err ("install failed for " ++ service.Name ++
                ": container is unhealthy: container failed to become healthy"),
              tr0 ++ pullCmds service.Image ++
                [launchCmd service.Name project (launchRest d service vargs hash)] ++
                List.replicate hc.Retries.toNat (healthPoll service.Name)))) ∧
    (∀ (h : String) (tr1 tr2 : Trace),
      pullImage d service.Image tr0 = (.ok h, tr1) →
      startContainer d project service "" tr1 = (.ok (), tr2) →
      (∃ rest, tr2 = tr0 ++ pullCmds service.Image ++ [launchCmd service.Name project rest]) ∧
      ∀ hc : HealthCheck, service.HealthCheck = some hc →
        (∀ k, k < hc.Retries.toNat → pollHealthy d service.Name tr2 k = false) →
        InstallService d project service tr0 =
          (.err ("install failed for " ++ service.Name ++
              ": container is unhealthy: container failed to become healthy"),
            tr2 ++ List.replicate hc.Retries.toNat (healthPoll service.Name))) := by
  refine ⟨?_, ?_, ?_⟩
  · intro c hc
    rcases (InstallService_extends d project service tr0).issued c hc with h | ⟨rest, rfl⟩
    · have h2 := h
      simp only [isReadOnly, Bool.or_eq_true, beq_iff_eq] at h2
      refine ⟨?_, ?_, ?_⟩
      · intro hr
        simp only [isRunCmd, beq_iff_eq] at hr
        rw [hr] at h2
        simp at h2
      · rcases h2 with ((h2 | h2) | h2) | h2 <;> simp [isRmCmd, h2]
      · rcases h2 with ((h2 | h2) | h2) | h2 <;> simp [isStopCmd, h2]
    · exact ⟨fun _ => ⟨rest, rfl⟩, by simp [isRmCmd, launchCmd], by simp [isStopCmd, launchCmd]⟩
  · intro o1 o2 vargs hash h1 h2 hv hh
    have hp := pullImage_of_answers d service.Image tr0 o1 o2 h1 h2
    have hi := startContainer_issues d project service "" (tr0 ++ pullCmds service.Image)
      vargs hash hv hh
    simp only [String.append_empty] at hi
    constructor
    · obtain ⟨k, hk⟩ := InstallService_after_pull d project service tr0 _ _ hp
      exact ⟨k, by rw [hk, hi]⟩
    · intro o3 hrun
      have hs := startContainer_of_answer d project service "" (tr0 ++ pullCmds service.Image)
        vargs hash o3 hv hh (by simpa using hrun)
      simp only [String.append_empty] at hs
      constructor
      · intro hnone
        unfold InstallService
        simp only [hp, hs, hnone, performHealthChecks]
      · intro hc hhc hpoll
        unfold InstallService
        simp only [hp, hs, hhc, performHealthChecks,
          healthLoop_none d service.Name hc.Retries.toNat _ hpoll]
        simp [String.append_assoc]
  · intro h tr1 tr2 hpull hstart
    have h1 := pullImage_ok d service.Image tr0 tr1 h hpull
    obtain ⟨rest, h2⟩ := startContainer_ok d project service "" tr1 tr2 hstart
    refine ⟨⟨rest, by rw [h2, h1]; simp⟩, ?_⟩
    intro hc hhc hpoll
    unfold InstallService
    simp only [hpull, hstart, hhc, performHealthChecks,
      healthLoop_none d service.Name hc.Retries.toNat tr2 hpoll]
    simp [String.append_assoc]

/-! ## Update path: rollback -/

/-- C1: when the service has a health check, the pull and the launch of the
shadow `Name_new` succeed, and none of the `Retries` polls of `Name_new` reads
healthy, `UpdateService` returns an error; after the polls it issues exactly
`docker rm -f Name_new`; and among all the commands it issued there is no
`docker network`, `docker stop` or `docker rename` command and no `docker rm`
other than that one. -/
theorem UpdateService_rollback (d : Deployment) (project : String) (service : Service)
    (hc : HealthCheck) (tr0 tr1 tr2 : Trace) (h : String)
    (hhc : service.HealthCheck = some hc)
    (hpull : pullImage d service.Image tr0 = (.ok h, tr1))
    (hstart : startContainer d project service "_new" tr1 = (.ok (), tr2))
    (hpoll : ∀ k, k < hc.Retries.toNat → pollHealthy d (service.Name ++ "_new") tr2 k = false) :
    (∃ msg, (UpdateService d project service tr0).1 = .err msg) ∧
    (∃ rest, tr2 = tr0 ++ pullCmds service.Image ++
      [launchCmd (service.Name ++ "_new") project rest]) ∧
    (UpdateService d project service tr0).2 =
      tr2 ++ List.replicate hc.Retries.toNat (healthPoll (service.Name ++ "_new")) ++
        [["docker", "rm", "-f", service.Name ++ "_new"]] ∧
    ∀ c ∈ issued tr0 (UpdateService d project service tr0).2,
      isNetworkCmd c = false ∧ isStopCmd c = false ∧ isRenameCmd c = false ∧
      (isRmCmd c = true → c = ["docker", "rm", "-f", service.Name ++ "_new"]) := by
  have h1 := pullImage_ok d service.Image tr0 tr1 h hpull
  obtain ⟨rest, h2⟩ := startContainer_ok d project service "_new" tr1 tr2 hstart
  have htr2 : tr2 = tr0 ++ pullCmds service.Image ++
      [launchCmd (service.Name ++ "_new") project rest] := by rw [h2, h1]
  have hrun : ∃ msg, UpdateService d project service tr0 =
      (.err msg, tr2 ++ List.replicate hc.Retries.toNat (healthPoll (service.Name ++ "_new")) ++
        [["docker", "rm", "-f", service.Name ++ "_new"]]) := by
    unfold UpdateService
    simp only [newContainerSuffix, hpull, hstart, hhc, performHealthChecks,
      healthLoop_none d (service.Name ++ "_new") hc.Retries.toNat tr2 hpoll]
    rcases runCommand_cases d "docker" ["rm", "-f", service.Name ++ "_new"]
        (tr2 ++ List.replicate hc.Retries.toNat (healthPoll (service.Name ++ "_new"))) with
      ⟨out, _, hr⟩ | ⟨e, _, hr⟩
    · simp only [hr]; exact ⟨_, rfl⟩
    · simp only [hr]; exact ⟨_, rfl⟩
  obtain ⟨msg, hU⟩ := hrun
  refine ⟨⟨msg, by rw [hU]⟩, ⟨rest, htr2⟩, by rw [hU], ?_⟩
  intro c hc
  rw [hU, htr2] at hc
  simp only [List.append_assoc, issued_append, List.mem_append, List.mem_cons,
    List.mem_singleton, List.not_mem_nil, or_false, pullCmds] at hc
  rcases hc with (rfl | rfl) | rfl | hc | rfl
  · simp [isNetworkCmd, isStopCmd, isRenameCmd, isRmCmd]
  · simp [isNetworkCmd, isStopCmd, isRenameCmd, isRmCmd]
  · simp [isNetworkCmd, isStopCmd, isRenameCmd, isRmCmd, launchCmd]
  · rw [List.eq_of_mem_replicate hc]
    simp [isNetworkCmd, isStopCmd, isRenameCmd, isRmCmd, healthPoll]
  · simp [isNetworkCmd, isStopCmd, isRenameCmd, isRmCmd]

/-! ## Lookup by alias -/

theorem aliasHolder_eq_some (d : Deployment) (service network : String) (r : ExecResult)
    (info : containerInfo) :
    aliasHolder d service network r = some info ↔ HoldsAlias d service network r info := by
  unfold aliasHolder HoldsAlias
  constructor
  · intro h
    split at h
    next out =>
      split at h
      next i rest hu =>
        split at h
        next entry hl =>
          split at h
          next hc =>
            simp only [Option.some.injEq] at h
            subst h
            exact ⟨out, rest, entry, rfl, hu, hl, by simpa using hc⟩
          next => simp at h
        next => simp at h
      next => simp at h
    next => simp at h
  · rintro ⟨out, rest, entry, rfl, hu, hl, hm⟩
    simp [hu, hl, hm]

theorem aliasHolder_eq_none (d : Deployment) (service network : String) (r : ExecResult) :
    aliasHolder d service network r = none ↔ ∀ info, ¬ HoldsAlias d service network r info := by
  constructor
  · intro h info hh
    rw [← aliasHolder_eq_some, h] at hh
    simp at hh
  · intro h
    cases hx : aliasHolder d service network r with
    | none => rfl
    | some info => exact absurd ((aliasHolder_eq_some d service network r info).mp hx) (h info)

/-- One iteration of the scan. -/
theorem scanContainers_cons (d : Deployment) (service network cid : String)
    (rest : List String) (tr : Trace) :
    scanContainers d service network (cid :: rest) tr =
      match aliasHolder d service network (d.executor tr ["docker", "inspect", cid]) with
      | some info => (.ok info, tr ++ [["docker", "inspect", cid]])
      | none => scanContainers d service network rest (tr ++ [["docker", "inspect", cid]]) := by
  rw [scanContainers]
  unfold runCommand aliasHolder
  cases d.executor tr ["docker", "inspect", cid] with
  | ok out =>
    simp only []
    cases d.unmarshal (trimSpace out) with
    | none => rfl
    | some l =>
      cases l with
      | nil => rfl
      | cons info l2 =>
        simp only []
        cases List.lookup network info.Networks with
        | none => rfl
        | some entry =>
          simp only []
          by_cases hc : service ∈ entry.Aliases
          · simp [hc]
          · simp [hc]
  | runErr e => rfl
  | readErr e => rfl

theorem inspectResult_zero (d : Deployment) (tr : Trace) (cid : String) (rest : List String) :
    inspectResult d tr (cid :: rest) 0 = d.executor tr ["docker", "inspect", cid] := by
  simp [inspectResult, inspectCmds]

theorem inspectResult_succ (d : Deployment) (tr : Trace) (cid : String) (rest : List String)
    (i : Nat) :
    inspectResult d tr (cid :: rest) (i + 1) =
      inspectResult d (tr ++ [["docker", "inspect", cid]]) rest i := by
  simp [inspectResult, inspectCmds]

theorem scanContainers_none (d : Deployment) (service network : String) (ids : List String)
    (tr : Trace)
    (h : ∀ i, i < ids.length →
      aliasHolder d service network (inspectResult d tr ids i) = none) :
    scanContainers d service network ids tr =
      (.err ("no container found with alias " ++ service ++ " in network " ++ network),
        tr ++ inspectCmds ids) := by
  induction ids generalizing tr with
  | nil => simp [scanContainers, inspectCmds]
  | cons cid rest ih =>
    have h0 := h 0 (Nat.succ_pos _)
    rw [inspectResult_zero] at h0
    rw [scanContainers_cons, h0]
    simp only []
    rw [ih (tr ++ [["docker", "inspect", cid]]) (fun i hi => by
      rw [← inspectResult_succ]; exact h (i + 1) (Nat.succ_lt_succ hi))]
    simp [inspectCmds]

theorem scanContainers_first (d : Deployment) (service network : String) (ids : List String)
    (tr : Trace) (i : Nat) (info : containerInfo) (hi : i < ids.length)
    (hh : aliasHolder d service network (inspectResult d tr ids i) = some info)
    (hlt : ∀ j, j < i → aliasHolder d service network (inspectResult d tr ids j) = none) :
    scanContainers d service network ids tr =
      (.ok info, tr ++ inspectCmds (ids.take (i + 1))) := by
  induction ids generalizing tr i with
  | nil => exact absurd hi (Nat.not_lt_zero i)
  | cons cid rest ih =>
    rw [scanContainers_cons]
    cases i with
    | zero =>
      rw [inspectResult_zero] at hh
      rw [hh]
      simp [inspectCmds]
    | succ i =>
      have h0 := hlt 0 (Nat.succ_pos _)
      rw [inspectResult_zero] at h0
      rw [h0]
      simp only []
      rw [ih (tr ++ [["docker", "inspect", cid]]) i (Nat.lt_of_succ_lt_succ hi)
        (by rw [← inspectResult_succ]; exact hh)
        (fun j hj => by rw [← inspectResult_succ]; exact hlt (j + 1) (Nat.succ_lt_succ hj))]
      simp [inspectCmds]

theorem scanContainers_ok_holds (d : Deployment) (service network : String)
    (ids : List String) (tr : Trace) (info : containerInfo)
    (h : (scanContainers d service network ids tr).1 = .ok info) :
    ∃ r, HoldsAlias d service network r info := by
  induction ids generalizing tr with
  | nil => simp [scanContainers] at h
  | cons cid rest ih =>
    rw [scanContainers_cons] at h
    cases hx : aliasHolder d service network (d.executor tr ["docker", "inspect", cid]) with
    | none =>
      rw [hx] at h
      exact ih _ h
    | some info2 =>
      rw [hx] at h
      simp only [Res.ok.injEq] at h
      subst h
      exact ⟨_, (aliasHolder_eq_some d service network _ info2).mp hx⟩

theorem getContainerInfo_of_ps (d : Deployment) (service network : String) (tr : Trace)
    (out : String) (hps : d.executor tr (psCmd network) = .ok out) :
    getContainerInfo d service network tr =
      scanContainers d service network (listing out) (tr ++ [psCmd network]) := by
  unfold getContainerInfo runCommand
  unfold psCmd at hps
  rw [hps]
  rfl

/-- The lookup returns the first listed container that holds the alias. -/
theorem getContainerInfo_first (d : Deployment) (service network : String) (tr : Trace)
    (out : String) (i : Nat) (info : containerInfo)
    (hps : d.executor tr (psCmd network) = .ok out)
    (hi : i < (listing out).length)
    (hh : HoldsAlias d service network
      (inspectResult d (tr ++ [psCmd network]) (listing out) i) info)
    (hlt : ∀ j, j < i → ∀ info2, ¬ HoldsAlias d service network
      (inspectResult d (tr ++ [psCmd network]) (listing out) j) info2) :
    getContainerInfo d service network tr = (.ok info, afterLookup tr network out i) := by
  rw [getContainerInfo_of_ps d service network tr out hps]
  exact scanContainers_first d service network _ _ i info hi
    ((aliasHolder_eq_some _ _ _ _ _).mpr hh)
    (fun j hj => (aliasHolder_eq_none _ _ _ _).mpr (hlt j hj))

/-- C10: when `docker ps` lists the container IDs `listing out`, the lookup
returns the record of the first listed container whose inspection (in
listing order, each after the earlier ones) succeeds, parses, and has
`service` among its aliases on `network`, having inspected the listing up to
that container; it returns the error `no container found ...` after
inspecting the whole listing when there is none; so it returns a container
iff some listed container holds the alias.  Whatever record it returns holds
the alias `service` on `network`: the container's name is not among the
decoded fields and plays no part. -/
theorem getContainerInfo_by_alias (d : Deployment) (service network : String) (tr : Trace)
    (out : String) (hps : d.executor tr (psCmd network) = .ok out) :
    (∀ i info, i < (listing out).length →
      HoldsAlias d service network
        (inspectResult d (tr ++ [psCmd network]) (listing out) i) info →
      (∀ j, j < i → ∀ info2, ¬ HoldsAlias d service network
        (inspectResult d (tr ++ [psCmd network]) (listing out) j) info2) →
      getContainerInfo d service network tr =
        (.ok info, tr ++ [psCmd network] ++ inspectCmds ((listing out).take (i + 1)))) ∧
    ((∀ i, i < (listing out).length → ∀ info, ¬ HoldsAlias d service network
        (inspectResult d (tr ++ [psCmd network]) (listing out) i) info) →
      getContainerInfo d service network tr =
        (.err ("no container found with alias " ++ service ++ " in network " ++ network),
          tr ++ [psCmd network] ++ inspectCmds (listing out))) ∧
    ((∃ info, (getContainerInfo d service network tr).1 = .ok info) ↔
      ∃ i info, i < (listing out).length ∧ HoldsAlias d service network
        (inspectResult d (tr ++ [psCmd network]) (listing out) i) info) ∧
    (∀ info, (getContainerInfo d service network tr).1 = .ok info →
      ∃ entry, info.Networks.lookup network = some entry ∧ service ∈ entry.Aliases) := by
  have hfirst : ∀ i info, i < (listing out).length →
      HoldsAlias d service network
        (inspectResult d (tr ++ [psCmd network]) (listing out) i) info →
      (∀ j, j < i → ∀ info2, ¬ HoldsAlias d service network
        (inspectResult d (tr ++ [psCmd network]) (listing out) j) info2) →
      getContainerInfo d service network tr =
        (.ok info, tr ++ [psCmd network] ++ inspectCmds ((listing out).take (i + 1))) := by
    intro i info hi hh hlt
    rw [getContainerInfo_of_ps d service network tr out hps]
    exact scanContainers_first d service network _ _ i info hi
      ((aliasHolder_eq_some _ _ _ _ _).mpr hh)
      (fun j hj => (aliasHolder_eq_none _ _ _ _).mpr (hlt j hj))
  have hnone : (∀ i, i < (listing out).length → ∀ info, ¬ HoldsAlias d service network
        (inspectResult d (tr ++ [psCmd network]) (listing out) i) info) →
      getContainerInfo d service network tr =
        (.err ("no container found with alias " ++ service ++ " in network " ++ network),
          tr ++ [psCmd network] ++ inspectCmds (listing out)) := by
    intro h
    rw [getContainerInfo_of_ps d service network tr out hps]
    exact scanContainers_none d service network _ _
      (fun i hi => (aliasHolder_eq_none _ _ _ _).mpr (h i hi))
  refine ⟨hfirst, hnone, ⟨?_, ?_⟩, ?_⟩
  · rintro ⟨info, hok⟩
    by_contra hno
    have hall : ∀ i, i < (listing out).length → ∀ info, ¬ HoldsAlias d service network
        (inspectResult d (tr ++ [psCmd network]) (listing out) i) info :=
      fun i hi info hh => hno ⟨i, info, hi, hh⟩
    rw [hnone hall] at hok
    simp at hok
  · intro hex
    classical
    have hex2 : ∃ i, ∃ info, i < (listing out).length ∧ HoldsAlias d service network
        (inspectResult d (tr ++ [psCmd network]) (listing out) i) info := hex
    obtain ⟨info, hi, hh⟩ := Nat.find_spec hex2
    have hlt : ∀ j, j < Nat.find hex2 → ∀ info2, ¬ HoldsAlias d service network
        (inspectResult d (tr ++ [psCmd network]) (listing out) j) info2 := by
      intro j hj info2 hh2
      exact Nat.find_min hex2 hj ⟨info2, Nat.lt_trans hj hi, hh2⟩
    exact ⟨info, by rw [hfirst _ info hi hh hlt]⟩
  · intro info hok
    rw [getContainerInfo_of_ps d service network tr out hps] at hok
    obtain ⟨r, o, rest, entry, _, _, hl, hm⟩ :=
      scanContainers_ok_holds d service network _ _ info hok
    exact ⟨entry, hl, hm⟩

/-! ## Service deployer -/

theorem isReadOnly_not_mutating (c : Cmd) (h : isReadOnly c = true) :
    isRunCmd c = false ∧ isRmCmd c = false ∧ isStopCmd c = false ∧ isRenameCmd c = false ∧
      isNetworkCmd c = false := by
  simp only [isReadOnly, Bool.or_eq_true, beq_iff_eq] at h
  rcases h with ((h | h) | h) | h <;>
    simp [isRunCmd, isRmCmd, isStopCmd, isRenameCmd, isNetworkCmd, h]

theorem pullCmds_readOnly (img : String) (c : Cmd) (h : c ∈ pullCmds img) :
    isReadOnly c = true := by
  simp only [pullCmds, List.mem_cons, List.mem_singleton, List.not_mem_nil, or_false] at h
  rcases h with rfl | rfl <;> simp [isReadOnly]

/-- C2: when the pull succeeds, the lookup of `deployService` finds a
container whose image ID is the pulled one, and the lookup repeated by
`serviceChanged` finds a container whose `ftl.config-hash` label is the
service's hash, `deployService` returns success and every command it issued
is read-only (`docker pull`, `images`, `ps`, `inspect`): no `docker run`,
`rm`, `stop`, `rename` or `network` command. -/
theorem deployService_idempotent (d : Deployment) (project : String) (service : Service)
    (tr0 tr1 tr2 tr3 : Trace) (h hash : String) (info1 info2 : containerInfo)
    (hpull : pullImage d service.Image tr0 = (.ok h, tr1))
    (hfind : getContainerInfo d service.Name project tr1 = (.ok info1, tr2))
    (himg : info1.Image = h)
    (hfind2 : getContainerInfo d service.Name project tr2 = (.ok info2, tr3))
    (hhash : d.hash service = .ok hash)
    (hlabel : labelOf info2.ConfigLabels "ftl.config-hash" = hash) :
    deployService d project service tr0 = (.ok (), tr3) ∧
    ∀ c ∈ issued tr0 tr3, isReadOnly c = true ∧ isRunCmd c = false ∧ isRmCmd c = false ∧
      isStopCmd c = false ∧ isRenameCmd c = false ∧ isNetworkCmd c = false := by
  constructor
  · unfold deployService
    simp only [hpull, hfind, himg, bne_self_eq_false, Bool.false_eq_true, if_false,
      serviceChanged, hfind2, hhash, hlabel]
  · have e1 := (pullImage_extends d service.Image tr0).mono (pullCmds_readOnly service.Image)
    rw [hpull] at e1
    have e2 := getContainerInfo_extends d service.Name project tr1
    rw [hfind] at e2
    have e3 := getContainerInfo_extends d service.Name project tr2
    rw [hfind2] at e3
    intro c hc
    have hro := ((e1.trans e2).trans e3).issued c hc
    exact ⟨hro, isReadOnly_not_mutating c hro⟩

theorem switchTraffic_extends (d : Deployment) (project service : String) (tr : Trace) :
    Extends (fun c => isRunCmd c = false) tr (switchTraffic d project service tr).2 := by
  have e1 : Extends (fun c => isRunCmd c = false) tr
      (getContainerInfo d service project tr).2 :=
    (getContainerInfo_extends d service project tr).mono
      (fun c hc => (isReadOnly_not_mutating c hc).1)
  unfold switchTraffic getContainerID
  rcases hg : getContainerInfo d service project tr with ⟨r, t1⟩
  rw [hg] at e1
  cases r with
  | err e => exact e1
  | panic => exact e1
  | ok info =>
    simp only []
    have e2 := e1.trans ((runCmds_extends d
      [["docker", "network", "disconnect", project, service ++ newContainerSuffix],
       ["docker", "network", "connect", "--alias", service, project,
        service ++ newContainerSuffix]] t1).mono (fun c hc => by
          simp only [List.mem_cons, List.mem_singleton, List.not_mem_nil, or_false] at hc
          rcases hc with rfl | rfl <;> simp [isRunCmd]))
    split
    next e t2 heq => rw [heq] at e2; exact e2
    next t2 heq => rw [heq] at e2; exact e2
    next a t2 heq =>
      rw [heq] at e2
      have e3 := e2.trans ((runCmds_extends d
        [["docker", "network", "disconnect", project, info.ID]] t2).mono (fun c hc => by
          simp only [List.mem_singleton] at hc
          rw [hc]; simp [isRunCmd]))
      split
      next e t3 heq3 => rw [heq3] at e3; exact e3
      next t3 heq3 => rw [heq3] at e3; exact e3
      next a3 t3 heq3 => rw [heq3] at e3; exact e3

theorem cleanup_extends (d : Deployment) (oldContID service : String) (tr : Trace) :
    Extends (fun c => isRunCmd c = false) tr (cleanup d oldContID service tr).2 := by
  unfold cleanup
  refine (runCmds_extends d _ tr).mono (fun c hc => ?_)
  simp only [List.mem_cons, List.mem_singleton, List.not_mem_nil, or_false] at hc
  rcases hc with rfl | rfl | rfl <;> simp [isRunCmd]

/-- Every `docker run` issued by `UpdateService` launches the shadow `Name_new`. -/
theorem UpdateService_extends (d : Deployment) (project : String) (service : Service)
    (tr : Trace) :
    Extends (fun c => isRunCmd c = true →
        ∃ rest, c = launchCmd (service.Name ++ "_new") project rest) tr
      (UpdateService d project service tr).2 := by
  have hno : ∀ c, isRunCmd c = false → (isRunCmd c = true →
      ∃ rest, c = launchCmd (service.Name ++ "_new") project rest) := by
    intro c h1 h2; rw [h1] at h2; simp at h2
  have e1 := (pullImage_extends d service.Image tr).mono
    (fun c hc => hno c (isReadOnly_not_mutating c (pullCmds_readOnly _ c hc)).1)
  unfold UpdateService
  simp only [newContainerSuffix]
  split
  next e t1 heq => rw [heq] at e1; exact e1
  next t1 heq => rw [heq] at e1; exact e1
  next a t1 heq =>
    rw [heq] at e1
    have e2 := e1.trans ((startContainer_extends d project service "_new" t1).mono
      (fun c hc _ => hc))
    split
    next e t2 heq2 => rw [heq2] at e2; exact e2
    next t2 heq2 => rw [heq2] at e2; exact e2
    next a2 t2 heq2 =>
      rw [heq2] at e2
      have e3 := e2.trans ((performHealthChecks_extends d (service.Name ++ "_new")
        service.HealthCheck t2).mono (fun c hc => hno c (by rw [hc]; simp [isRunCmd, healthPoll])))
      split
      next t3 heq3 => rw [heq3] at e3; exact e3
      next e t3 heq3 =>
        rw [heq3] at e3
        have e4 := e3.trans (runCommand_extends _ d "docker"
          ["rm", "-f", service.Name ++ "_new"] t3 (hno _ (by simp [isRunCmd])))
        split
        next e5 t4 heq4 => rw [heq4] at e4; exact e4
        next t4 heq4 => rw [heq4] at e4; exact e4
        next a4 t4 heq4 => rw [heq4] at e4; exact e4
      next a3 t3 heq3 =>
        rw [heq3] at e3
        have e4 := e3.trans ((switchTraffic_extends d project service.Name t3).mono hno)
        split
        next e t4 heq4 => rw [heq4] at e4; exact e4
        next t4 heq4 => rw [heq4] at e4; exact e4
        next old t4 heq4 =>
          rw [heq4] at e4
          have e5 := e4.trans ((cleanup_extends d old service.Name t4).mono hno)
          split
          next e t5 heq5 => rw [heq5] at e5; exact e5
          next t5 heq5 => rw [heq5] at e5; exact e5
          next a5 t5 heq5 => rw [heq5] at e5; exact e5

/-- After a successful pull, the trace of `UpdateService` starts with that of the
launch of the shadow. -/
theorem UpdateService_after_pull (d : Deployment) (project : String) (service : Service)
    (tr tr1 : Trace) (h : String)
    (hpull : pullImage d service.Image tr = (.ok h, tr1)) :
    Extends (fun _ => True) (startContainer d project service "_new" tr1).2
      (UpdateService d project service tr).2 := by
  have triv : ∀ (P : Cmd → Prop) (c : Cmd), P c → True := fun _ _ _ => trivial
  unfold UpdateService
  simp only [newContainerSuffix, hpull]
  rcases hs : startContainer d project service "_new" tr1 with ⟨r, tr2⟩
  cases r with
  | err e => exact Extends.refl _ _
  | panic => exact Extends.refl _ _
  | ok u =>
    simp only []
    have e3 := (performHealthChecks_extends d (service.Name ++ "_new")
      service.HealthCheck tr2).mono (triv _)
    split
    next t3 heq3 => rw [heq3] at e3; exact e3
    next e t3 heq3 =>
      rw [heq3] at e3
      have e4 := e3.trans (runCommand_extends _ d "docker"
        ["rm", "-f", service.Name ++ "_new"] t3 trivial)
      split
      next e5 t4 heq4 => rw [heq4] at e4; exact e4
      next t4 heq4 => rw [heq4] at e4; exact e4
      next a4 t4 heq4 => rw [heq4] at e4; exact e4
    next a3 t3 heq3 =>
      rw [heq3] at e3
      have e4 := e3.trans ((switchTraffic_extends d project service.Name t3).mono (triv _))
      split
      next e t4 heq4 => rw [heq4] at e4; exact e4
      next t4 heq4 => rw [heq4] at e4; exact e4
      next old t4 heq4 =>
        rw [heq4] at e4
        have e5 := e4.trans ((cleanup_extends d old service.Name t4).mono (triv _))
        split
        next e t5 heq5 => rw [heq5] at e5; exact e5
        next t5 heq5 => rw [heq5] at e5; exact e5
        next a5 t5 heq5 => rw [heq5] at e5; exact e5

/-- C3: the executor answers `docker pull` and `docker images`, the latter with
output `o2`, so the freshly pulled image ID is `o2` trimmed; `docker ps` lists
containers of which number `i` is the first to hold the alias `Name` on the
project network, with decoded record `info`; and the pulled image ID differs
from `info.Image`.  Then `deployService` takes the update path: its outcome is
that of `UpdateService` run after the lookup (an error is wrapped as `due to
image change`).  No hypothesis is made on the `ftl.config-hash` label of
`info`, which is not read on this path.  Every `docker run` issued from there
launches the shadow `Name_new`; and when `UpdateService`'s own pull is
answered, the volume bindings are non-empty and the hash is computed, the
commands issued after the lookup start with the pull followed by the launch
`docker run -d --name Name_new --network project --network-alias Name_new ...`. -/
theorem deployService_image_drift (d : Deployment) (project : String) (service : Service)
    (tr0 : Trace) (o1 o2 out : String) (i : Nat) (info : containerInfo)
    (hpull : d.executor tr0 ["docker", "pull", service.Image] = .ok o1)
    (himages : d.executor (tr0 ++ [["docker", "pull", service.Image]])
      ["docker", "images", "--no-trunc", "--format=\x7b\x7b.ID\x7d\x7d", service.Image] =
        .ok o2)
    (hps : d.executor (tr0 ++ pullCmds service.Image) (psCmd project) = .ok out)
    (hi : i < (listing out).length)
    (hholds : HoldsAlias d service.Name project
      (inspectResult d (tr0 ++ pullCmds service.Image ++ [psCmd project]) (listing out) i) info)
    (hfirst : ∀ j, j < i → ∀ info2, ¬ HoldsAlias d service.Name project
      (inspectResult d (tr0 ++ pullCmds service.Image ++ [psCmd project]) (listing out) j)
      info2)
    (hne : trimSpace o2 ≠ info.Image) :
    deployService d project service tr0 =
      (match UpdateService d project service
          (afterLookup (tr0 ++ pullCmds service.Image) project out i) with
       | (.err e, t) =>
         (.err ("failed to update service " ++ service.Name ++ " due to image change: " ++ e), t)
       | (.panic, t) => (.panic, t)
       | (.ok _, t) => (.ok (), t)) ∧
    (∀ c ∈ issued (afterLookup (tr0 ++ pullCmds service.Image) project out i)
        (deployService d project service tr0).2,
      isRunCmd c = true → ∃ rest, c = launchCmd (service.Name ++ "_new") project rest) ∧
    (∀ (o3 o4 : String) (vargs : List String) (hash : String),
      d.executor (afterLookup (tr0 ++ pullCmds service.Image) project out i)
        ["docker", "pull", service.Image] = .ok o3 →
      d.executor (afterLookup (tr0 ++ pullCmds service.Image) project out i ++
          [["docker", "pull", service.Image]])
        ["docker", "images", "--no-trunc", "--format=\x7b\x7b.ID\x7d\x7d", service.Image] =
          .ok o4 →
      volumeArgs project service.Volumes = some vargs →
      d.hash service = .ok hash →
      ∃ ext, (deployService d project service tr0).2 =
        afterLookup (tr0 ++ pullCmds service.Image) project out i ++
          pullCmds service.Image ++
          [launchCmd (service.Name ++ "_new") project (launchRest d service vargs hash)] ++
          ext) := by
  have hP := pullImage_of_answers d service.Image tr0 o1 o2 hpull himages
  have hF := getContainerInfo_first d service.Name project (tr0 ++ pullCmds service.Image)
    out i info hps hi hholds hfirst
  have hD : deployService d project service tr0 =
      (match UpdateService d project service
          (afterLookup (tr0 ++ pullCmds service.Image) project out i) with
       | (.err e, t) =>
         (.err ("failed to update service " ++ service.Name ++ " due to image change: " ++ e), t)
       | (.panic, t) => (.panic, t)
       | (.ok _, t) => (.ok (), t)) := by
    unfold deployService
    simp only [hP, hF, bne_iff_ne, ne_eq, hne, not_false_eq_true, if_true]
  have h2 : (deployService d project service tr0).2 =
      (UpdateService d project service
        (afterLookup (tr0 ++ pullCmds service.Image) project out i)).2 := by
    rw [hD]
    split <;> rename_i heq <;> rw [heq]
  refine ⟨hD, ?_, ?_⟩
  · rw [h2]
    exact (UpdateService_extends d project service _).issued
  · intro o3 o4 vargs hash h3 h4 hv hh
    rw [h2]
    have hP2 := pullImage_of_answers d service.Image _ o3 o4 h3 h4
    obtain ⟨ext, hext, _⟩ := UpdateService_after_pull d project service _ _ _ hP2
    rw [startContainer_issues d project service "_new" _ vargs hash hv hh] at hext
    exact ⟨ext, hext⟩

/-! ## Update path: the full cycle -/

theorem mutating_append (a b : List Cmd) : mutating (a ++ b) = mutating a ++ mutating b := by
  simp [mutating]

theorem mutating_readOnly (l : List Cmd) (h : ∀ c ∈ l, isReadOnly c = true) :
    mutating l = [] := by
  simp only [mutating, List.filter_eq_nil_iff]
  intro c hc
  simp [h c hc]

theorem runCommand_ok_all (d : Deployment) (hall : ∀ tr c, ∃ out, d.executor tr c = .ok out)
    (c : String) (a : List String) (tr : Trace) :
    ∃ o, runCommand d c a tr = (.ok o, tr ++ [c :: a]) := by
  rcases runCommand_cases d c a tr with ⟨out, _, h⟩ | ⟨e, hne, _⟩
  · exact ⟨_, h⟩
  · obtain ⟨out, ho⟩ := hall tr (c :: a)
    exact absurd ho (hne out)

theorem runCmds_ok_all (d : Deployment) (hall : ∀ tr c, ∃ out, d.executor tr c = .ok out)
    (cmds : List Cmd) (hne : ∀ c ∈ cmds, c ≠ []) (tr : Trace) :
    runCmds d cmds tr = (.ok (), tr ++ cmds) := by
  induction cmds generalizing tr with
  | nil => simp [runCmds]
  | cons cmd rest ih =>
    cases cmd with
    | nil => exact absurd rfl (hne [] (List.mem_cons_self _ _))
    | cons command args =>
      obtain ⟨o, ho⟩ := runCommand_ok_all d hall command args tr
      unfold runCmds
      simp only [ho]
      rw [ih (fun c hc => hne c (List.mem_cons_of_mem _ hc))]
      simp

theorem switchTraffic_ok_all (d : Deployment) (hall : ∀ tr c, ∃ out, d.executor tr c = .ok out)
    (project service : String) (tr tr1 : Trace) (info : containerInfo)
    (hfind : getContainerInfo d service project tr = (.ok info, tr1)) :
    switchTraffic d project service tr =
      (.ok info.ID, tr1 ++
        [["docker", "network", "disconnect", project, service ++ "_new"],
         ["docker", "network", "connect", "--alias", service, project, service ++ "_new"],
         ["docker", "network", "disconnect", project, info.ID]]) := by
  unfold switchTraffic getContainerID
  simp only [hfind, newContainerSuffix]
  rw [runCmds_ok_all d hall _ (by simp)]
  simp only []
  rw [runCmds_ok_all d hall _ (by simp)]
  simp

theorem cleanup_ok_all (d : Deployment) (hall : ∀ tr c, ∃ out, d.executor tr c = .ok out)
    (oldContID service : String) (tr : Trace) :
    cleanup d oldContID service tr =
      (.ok (), tr ++
        [["docker", "stop", oldContID], ["docker", "rm", oldContID],
         ["docker", "rename", service ++ "_new", service]]) := by
  unfold cleanup
  simp only [newContainerSuffix]
  rw [runCmds_ok_all d hall _ (by simp)]

/-- C4: the running container is found with the pulled image ID, the lookup
of `serviceChanged` finds a `ftl.config-hash` label different from the
service's hash, every remote command succeeds, the shadow is launched and
passes the health verifier, and the lookup of `switchTraffic` finds
the container `info3` holding the alias.  Then `deployService` returns
success, and the commands it issued that are not read-only are exactly, in
order: the `docker run` of `Name_new` with alias `Name_new`, the shadow's
disconnect, its reconnect under alias `Name`, the disconnect, stop and removal
of the old container `info3.ID`, and the rename of `Name_new` to `Name`. -/
theorem deployService_config_change (d : Deployment) (project : String) (service : Service)
    (tr0 tr1 tr2 tr3 tr4 tr5 tr6 tr7 : Trace) (h h2 hash : String)
    (info1 info2 info3 : containerInfo)
    (hall : ∀ tr c, ∃ out, d.executor tr c = .ok out)
    (hpull : pullImage d service.Image tr0 = (.ok h, tr1))
    (hfind1 : getContainerInfo d service.Name project tr1 = (.ok info1, tr2))
    (himg : info1.Image = h)
    (hfind2 : getContainerInfo d service.Name project tr2 = (.ok info2, tr3))
    (hhash : d.hash service = .ok hash)
    (hlabel : labelOf info2.ConfigLabels "ftl.config-hash" ≠ hash)
    (hpull2 : pullImage d service.Image tr3 = (.ok h2, tr4))
    (hstart : startContainer d project service "_new" tr4 = (.ok (), tr5))
    (hhealth : performHealthChecks d (service.Name ++ "_new") service.HealthCheck tr5 =
      (.ok (), tr6))
    (hfind3 : getContainerInfo d service.Name project tr6 = (.ok info3, tr7)) :
    ∃ rest : List String,
      (deployService d project service tr0).1 = .ok () ∧
      mutating (issued tr0 (deployService d project service tr0).2) =
        [launchCmd (service.Name ++ "_new") project rest,
         ["docker", "network", "disconnect", project, service.Name ++ "_new"],
         ["docker", "network", "connect", "--alias", service.Name, project,
           service.Name ++ "_new"],
         ["docker", "network", "disconnect", project, info3.ID],
         ["docker", "stop", info3.ID],
         ["docker", "rm", info3.ID],
         ["docker", "rename", service.Name ++ "_new", service.Name]] := by
  obtain ⟨rest, hrest⟩ := startContainer_ok d project service "_new" tr4 tr5 hstart
  have hU : UpdateService d project service tr3 =
      (.ok (), tr7 ++
        [["docker", "network", "disconnect", project, service.Name ++ "_new"],
         ["docker", "network", "connect", "--alias", service.Name, project,
           service.Name ++ "_new"],
         ["docker", "network", "disconnect", project, info3.ID]] ++
        [["docker", "stop", info3.ID], ["docker", "rm", info3.ID],
         ["docker", "rename", service.Name ++ "_new", service.Name]]) := by
    unfold UpdateService
    simp only [newContainerSuffix, hpull2, hstart, hhealth,
      switchTraffic_ok_all d hall project service.Name tr6 tr7 info3 hfind3,
      cleanup_ok_all d hall]
  have hD : deployService d project service tr0 =
      (.ok (), tr7 ++
        [["docker", "network", "disconnect", project, service.Name ++ "_new"],
         ["docker", "network", "connect", "--alias", service.Name, project,
           service.Name ++ "_new"],
         ["docker", "network", "disconnect", project, info3.ID]] ++
        [["docker", "stop", info3.ID], ["docker", "rm", info3.ID],
         ["docker", "rename", service.Name ++ "_new", service.Name]]) := by
    unfold deployService
    simp only [hpull, hfind1, himg, bne_self_eq_false, Bool.false_eq_true, if_false,
      serviceChanged, hfind2, hhash, bne_iff_ne, ne_eq, hlabel, not_false_eq_true,
      decide_True, if_true, hU]
  refine ⟨rest, by rw [hD], ?_⟩
  rw [hD]
  · have e1 := pullImage_ok d service.Image tr0 tr1 h hpull
    have e2 := getContainerInfo_extends d service.Name project tr1
    rw [hfind1] at e2
    obtain ⟨x2, hx2, p2⟩ := e2
    have e3 := getContainerInfo_extends d service.Name project tr2
    rw [hfind2] at e3
    obtain ⟨x3, hx3, p3⟩ := e3
    have e4 := pullImage_ok d service.Image tr3 tr4 h2 hpull2
    have e6 := performHealthChecks_extends d (service.Name ++ "_new") service.HealthCheck tr5
    rw [hhealth] at e6
    obtain ⟨x6, hx6, p6⟩ := e6
    have e7 := getContainerInfo_extends d service.Name project tr6
    rw [hfind3] at e7
    obtain ⟨x7, hx7, p7⟩ := e7
    simp only at hx2 hx3 hx6 hx7
    have hp6 : ∀ c ∈ x6, isReadOnly c = true := by
      intro c hc; rw [p6 c hc]; simp [isReadOnly, healthPoll]
    subst hx7 hx6 hrest e4 hx3 hx2 e1
    simp only [List.append_assoc, issued_append, mutating_append,
      mutating_readOnly _ (pullCmds_readOnly service.Image), mutating_readOnly _ p2,
      mutating_readOnly _ p3, mutating_readOnly _ hp6, mutating_readOnly _ p7,
      List.nil_append]
    simp [mutating, isReadOnly, launchCmd]

/-! ## Cutover and the alias model -/

theorem prefix_append_cases {α : Type} (p l s : List α) (h : p <+: l ++ s) :
    p <+: l ∨ ∃ q, q <+: s ∧ p = l ++ q := by
  induction l generalizing p with
  | nil => exact Or.inr ⟨p, by simpa using h, by simp⟩
  | cons a l ih =>
    rw [List.cons_append, List.prefix_cons_iff] at h
    rcases h with rfl | ⟨t, rfl, ht⟩
    · exact Or.inl List.nil_prefix
    · rcases ih t ht with h1 | ⟨q, hq, rfl⟩
      · exact Or.inl ((List.cons_prefix_cons).mpr ⟨rfl, h1⟩)
      · exact Or.inr ⟨q, hq, rfl⟩

theorem netStep_readOnly (project : String) (net : Net) (c : Cmd) (r : ExecResult)
    (h : isReadOnly c = true) : netStep project net c r = net := by
  unfold netStep
  split
  · split
    · simp [isReadOnly] at h
    · simp [isReadOnly] at h
    · rfl
  · rfl

theorem netStep_failed (project : String) (net : Net) (c : Cmd) (r : ExecResult)
    (h : ∀ out, r ≠ .ok out) : netStep project net c r = net := by
  unfold netStep
  split
  · exact absurd rfl (h _)
  · rfl

theorem replayNet_append (d : Deployment) (project : String) (hist : Trace) (a b : List Cmd)
    (net : Net) :
    replayNet d project hist (a ++ b) net =
      replayNet d project (hist ++ a) b (replayNet d project hist a net) := by
  induction a generalizing hist net with
  | nil => simp [replayNet]
  | cons c cs ih =>
    rw [List.cons_append, replayNet, replayNet, ih]
    simp

theorem replayNet_readOnly (d : Deployment) (project : String) (hist : Trace) (l : List Cmd)
    (net : Net) (h : ∀ c ∈ l, isReadOnly c = true) : replayNet d project hist l net = net := by
  induction l generalizing hist net with
  | nil => rfl
  | cons c cs ih =>
    simp only [replayNet]
    rw [netStep_readOnly project net c _ (h c (List.mem_cons_self _ _))]
    exact ih _ _ (fun x hx => h x (List.mem_cons_of_mem _ hx))

theorem append_new_ne (s : String) : s ++ "_new" ≠ s := by
  intro h
  have h2 := congrArg String.length h
  simp only [String.length_append] at h2
  have h3 : "_new".length = 4 := by decide
  omega

/-- After the health verifier passed, `UpdateService` is `cutover`. -/
theorem UpdateService_eq_cutover (d : Deployment) (project : String) (service : Service)
    (tr tr1 tr2 tr3 : Trace) (h : String)
    (hpull : pullImage d service.Image tr = (.ok h, tr1))
    (hstart : startContainer d project service "_new" tr1 = (.ok (), tr2))
    (hhealth : performHealthChecks d (service.Name ++ "_new") service.HealthCheck tr2 =
      (.ok (), tr3)) :
    UpdateService d project service tr = cutover d project service.Name tr3 := by
  unfold UpdateService cutover
  simp only [newContainerSuffix, hpull, hstart, hhealth]

theorem prefix_net (d : Deployment) (project : String) (tr0 : Trace) (l s p : List Cmd)
    (net0 : Net) (hl : ∀ c ∈ l, isReadOnly c = true) (hp : p <+: l ++ s) :
    ∃ q, q <+: s ∧ replayNet d project tr0 p net0 = replayNet d project (tr0 ++ l) q net0 ∧
      ∀ x, isReadOnly x = false → (x ∈ p ↔ x ∈ q) := by
  rcases prefix_append_cases p l s hp with h | ⟨q, hq, rfl⟩
  · refine ⟨[], List.nil_prefix, ?_, ?_⟩
    · rw [replayNet_readOnly d project tr0 p net0 (fun c hc => hl c (h.subset hc))]
      rfl
    · intro x hx
      constructor
      · intro hxp
        rw [hl x (h.subset hxp)] at hx
        simp at hx
      · intro hxq
        simp at hxq
  · refine ⟨q, hq, ?_, ?_⟩
    · rw [replayNet_append, replayNet_readOnly d project tr0 l net0 hl]
    · intro x hx
      constructor
      · intro hxp
        rcases List.mem_append.mp hxp with h1 | h1
        · rw [hl x h1] at hx
          simp at hx
        · exact h1
      · intro hxq
        exact List.mem_append.mpr (Or.inr hxq)

/-- C5: in the alias model (`netStep`, `replayNet`), start from a network where
the container `old` that the lookup of `switchTraffic` resolves to holds the
canonical alias `service` and the shadow `service_new`, a different
container, holds only `service_new`.  After every prefix `p` of the commands
issued by `switchTraffic` followed by `cleanup`, whichever command fails, `old`
or the shadow holds the canonical alias; and when both hold it, the shadow's
reconnect is in `p` and the disconnect of `old`, if already issued, failed. -/
theorem cutover_no_dual_absence (d : Deployment) (project service : String) (tr0 : Trace)
    (net0 : Net) (old : String) (p : List Cmd)
    (hold : service ∈ net0 old)
    (hshadow : net0 (service ++ "_new") = [service ++ "_new"])
    (hdistinct : old ≠ service ++ "_new")
    (hfind : ∀ id tr1, getContainerID d project service tr0 = (.ok id, tr1) → id = old)
    (hp : p <+: issued tr0 (cutover d project service tr0).2) :
    (service ∈ replayNet d project tr0 p net0 old ∨
      service ∈ replayNet d project tr0 p net0 (service ++ "_new")) ∧
    (service ∈ replayNet d project tr0 p net0 old ∧
      service ∈ replayNet d project tr0 p net0 (service ++ "_new") →
      ["docker", "network", "connect", "--alias", service, project, service ++ "_new"] ∈ p ∧
      (["docker", "network", "disconnect", project, old] ∈ p →
        ∀ out, d.executor ((getContainerID d project service tr0).2 ++
          [["docker", "network", "disconnect", project, service ++ "_new"],
           ["docker", "network", "connect", "--alias", service, project, service ++ "_new"]])
          ["docker", "network", "disconnect", project, old] ≠ .ok out)) := by
  have hne := append_new_ne service
  have hne2 : ¬ service = service ++ "_new" := fun h => hne h.symm
  have hd2 : ¬ service ++ "_new" = old := fun h => hdistinct h.symm
  have hsh : service ∉ net0 (service ++ "_new") := by
    rw [hshadow]; simpa using hne2
  have hc : isReadOnly ["docker", "network", "connect", "--alias", service, project,
      service ++ "_new"] = false := by simp [isReadOnly]
  have hdo : isReadOnly ["docker", "network", "disconnect", project, old] = false := by
    simp [isReadOnly]
  obtain ⟨l, hl, pl⟩ := getContainerInfo_extends d service project tr0
  rcases hg : getContainerInfo d service project tr0 with ⟨r, t1⟩
  rw [hg] at hl
  simp only at hl
  have hgid2 : (getContainerID d project service tr0).2 = t1 := by
    unfold getContainerID; rw [hg]; cases r <;> rfl
  rw [hgid2]
  cases r with
  | err e =>
    have hC : (cutover d project service tr0).2 = tr0 ++ (l ++ []) := by
      simp [cutover, switchTraffic, getContainerID, hg, hl]
    rw [hC, issued_append] at hp
    obtain ⟨q, hq, hnet, hmem⟩ := prefix_net d project tr0 l [] p net0 pl hp
    rw [hnet, hmem _ hc, hmem _ hdo]
    simp only [List.prefix_nil] at hq
    subst hq
    simp [replayNet, hold, hsh]
  | panic =>
    have hC : (cutover d project service tr0).2 = tr0 ++ (l ++ []) := by
      simp [cutover, switchTraffic, getContainerID, hg, hl]
    rw [hC, issued_append] at hp
    obtain ⟨q, hq, hnet, hmem⟩ := prefix_net d project tr0 l [] p net0 pl hp
    rw [hnet, hmem _ hc, hmem _ hdo]
    simp only [List.prefix_nil] at hq
    subst hq
    simp [replayNet, hold, hsh]
  | ok info =>
    have hid : info.ID = old := hfind info.ID t1 (by simp [getContainerID, hg])
    subst hid
    rcases runCommand_cases d "docker" ["network", "disconnect", project, service ++ "_new"] t1
      with ⟨o0, x0, r0⟩ | ⟨e0, x0, r0⟩
    · rcases runCommand_cases d "docker" ["network", "connect", "--alias", service, project, service ++ "_new"] (t1 ++ [["docker", "network", "disconnect", project, service ++ "_new"]])
        with ⟨o1, x1, r1⟩ | ⟨e1, x1, r1⟩
      · rcases runCommand_cases d "docker" ["network", "disconnect", project, info.ID] (t1 ++ [["docker", "network", "disconnect", project, service ++ "_new"], ["docker", "network", "connect", "--alias", service, project, service ++ "_new"]])
          with ⟨o2, x2, r2⟩ | ⟨e2, x2, r2⟩
        · rcases runCommand_cases d "docker" ["stop", info.ID] (t1 ++ [["docker", "network", "disconnect", project, service ++ "_new"], ["docker", "network", "connect", "--alias", service, project, service ++ "_new"], ["docker", "network", "disconnect", project, info.ID]])
            with ⟨o3, x3, r3⟩ | ⟨e3, x3, r3⟩
          · rcases runCommand_cases d "docker" ["rm", info.ID] (t1 ++ [["docker", "network", "disconnect", project, service ++ "_new"], ["docker", "network", "connect", "--alias", service, project, service ++ "_new"], ["docker", "network", "disconnect", project, info.ID], ["docker", "stop", info.ID]])
              with ⟨o4, x4, r4⟩ | ⟨e4, x4, r4⟩
            · rcases runCommand_cases d "docker" ["rename", service ++ "_new", service] (t1 ++ [["docker", "network", "disconnect", project, service ++ "_new"], ["docker", "network", "connect", "--alias", service, project, service ++ "_new"], ["docker", "network", "disconnect", project, info.ID], ["docker", "stop", info.ID], ["docker", "rm", info.ID]])
                with ⟨o5, x5, r5⟩ | ⟨e5, x5, r5⟩
              · have hC : (cutover d project service tr0).2 = t1 ++ [["docker", "network", "disconnect", project, service ++ "_new"], ["docker", "network", "connect", "--alias", service, project, service ++ "_new"], ["docker", "network", "disconnect", project, info.ID], ["docker", "stop", info.ID], ["docker", "rm", info.ID], ["docker", "rename", service ++ "_new", service]] := by
                  simp [cutover, switchTraffic, getContainerID, cleanup, hg, runCmds, r0, r1, r2, r3, r4, r5, newContainerSuffix]
                rw [hC, hl, List.append_assoc, issued_append] at hp
                obtain ⟨q, hq, hnet, hmem⟩ := prefix_net d project tr0 l _ p net0 pl hp
                rw [hnet, hmem _ hc, hmem _ hdo, ← hl]
                simp only [List.prefix_cons_iff, List.prefix_nil] at hq
                rcases hq with rfl | ⟨_, rfl, rfl | ⟨_, rfl, rfl | ⟨_, rfl, rfl | ⟨_, rfl, rfl | ⟨_, rfl, rfl | ⟨_, rfl, rfl⟩⟩⟩⟩⟩⟩ <;>
                  simp [replayNet, netStep, hold, hsh, hne, hne2, hd2, hdistinct, Function.update_apply, x0, x1, x2, x3, x4, x5]
              · have hC : (cutover d project service tr0).2 = t1 ++ [["docker", "network", "disconnect", project, service ++ "_new"], ["docker", "network", "connect", "--alias", service, project, service ++ "_new"], ["docker", "network", "disconnect", project, info.ID], ["docker", "stop", info.ID], ["docker", "rm", info.ID], ["docker", "rename", service ++ "_new", service]] := by
                  simp [cutover, switchTraffic, getContainerID, cleanup, hg, runCmds, r0, r1, r2, r3, r4, r5, newContainerSuffix]
                rw [hC, hl, List.append_assoc, issued_append] at hp
                obtain ⟨q, hq, hnet, hmem⟩ := prefix_net d project tr0 l _ p net0 pl hp
                rw [hnet, hmem _ hc, hmem _ hdo, ← hl]
                simp only [List.prefix_cons_iff, List.prefix_nil] at hq
                rcases hq with rfl | ⟨_, rfl, rfl | ⟨_, rfl, rfl | ⟨_, rfl, rfl | ⟨_, rfl, rfl | ⟨_, rfl, rfl | ⟨_, rfl, rfl⟩⟩⟩⟩⟩⟩ <;>
                  simp [replayNet, netStep, hold, hsh, hne, hne2, hd2, hdistinct, Function.update_apply, x0, x1, x2, x3, x4, netStep_failed _ _ _ _ x5, x5]
            · have hC : (cutover d project service tr0).2 = t1 ++ [["docker", "network", "disconnect", project, service ++ "_new"], ["docker", "network", "connect", "--alias", service, project, service ++ "_new"], ["docker", "network", "disconnect", project, info.ID], ["docker", "stop", info.ID], ["docker", "rm", info.ID]] := by
                simp [cutover, switchTraffic, getContainerID, cleanup, hg, runCmds, r0, r1, r2, r3, r4, newContainerSuffix]
              rw [hC, hl, List.append_assoc, issued_append] at hp
              obtain ⟨q, hq, hnet, hmem⟩ := prefix_net d project tr0 l _ p net0 pl hp
              rw [hnet, hmem _ hc, hmem _ hdo, ← hl]
              simp only [List.prefix_cons_iff, List.prefix_nil] at hq
              rcases hq with rfl | ⟨_, rfl, rfl | ⟨_, rfl, rfl | ⟨_, rfl, rfl | ⟨_, rfl, rfl | ⟨_, rfl, rfl⟩⟩⟩⟩⟩ <;>
                simp [replayNet, netStep, hold, hsh, hne, hne2, hd2, hdistinct, Function.update_apply, x0, x1, x2, x3, netStep_failed _ _ _ _ x4, x4]
          · have hC : (cutover d project service tr0).2 = t1 ++ [["docker", "network", "disconnect", project, service ++ "_new"], ["docker", "network", "connect", "--alias", service, project, service ++ "_new"], ["docker", "network", "disconnect", project, info.ID], ["docker", "stop", info.ID]] := by
              simp [cutover, switchTraffic, getContainerID, cleanup, hg, runCmds, r0, r1, r2, r3, newContainerSuffix]
            rw [hC, hl, List.append_assoc, issued_append] at hp
            obtain ⟨q, hq, hnet, hmem⟩ := prefix_net d project tr0 l _ p net0 pl hp
            rw [hnet, hmem _ hc, hmem _ hdo, ← hl]
            simp only [List.prefix_cons_iff, List.prefix_nil] at hq
            rcases hq with rfl | ⟨_, rfl, rfl | ⟨_, rfl, rfl | ⟨_, rfl, rfl | ⟨_, rfl, rfl⟩⟩⟩⟩ <;>
              simp [replayNet, netStep, hold, hsh, hne, hne2, hd2, hdistinct, Function.update_apply, x0, x1, x2, netStep_failed _ _ _ _ x3, x3]
        · have hC : (cutover d project service tr0).2 = t1 ++ [["docker", "network", "disconnect", project, service ++ "_new"], ["docker", "network", "connect", "--alias", service, project, service ++ "_new"], ["docker", "network", "disconnect", project, info.ID]] := by
            simp [cutover, switchTraffic, getContainerID, cleanup, hg, runCmds, r0, r1, r2, newContainerSuffix]
          rw [hC, hl, List.append_assoc, issued_append] at hp
          obtain ⟨q, hq, hnet, hmem⟩ := prefix_net d project tr0 l _ p net0 pl hp
          rw [hnet, hmem _ hc, hmem _ hdo, ← hl]
          simp only [List.prefix_cons_iff, List.prefix_nil] at hq
          rcases hq with rfl | ⟨_, rfl, rfl | ⟨_, rfl, rfl | ⟨_, rfl, rfl⟩⟩⟩ <;>
            simp [replayNet, netStep, hold, hsh, hne, hne2, hd2, hdistinct, Function.update_apply, x0, x1, netStep_failed _ _ _ _ x2, x2]
      · have hC : (cutover d project service tr0).2 = t1 ++ [["docker", "network", "disconnect", project, service ++ "_new"], ["docker", "network", "connect", "--alias", service, project, service ++ "_new"]] := by
          simp [cutover, switchTraffic, getContainerID, cleanup, hg, runCmds, r0, r1, newContainerSuffix]
        rw [hC, hl, List.append_assoc, issued_append] at hp
        obtain ⟨q, hq, hnet, hmem⟩ := prefix_net d project tr0 l _ p net0 pl hp
        rw [hnet, hmem _ hc, hmem _ hdo, ← hl]
        simp only [List.prefix_cons_iff, List.prefix_nil] at hq
        rcases hq with rfl | ⟨_, rfl, rfl | ⟨_, rfl, rfl⟩⟩ <;>
          simp [replayNet, netStep, hold, hsh, hne, hne2, hd2, hdistinct, Function.update_apply, x0, netStep_failed _ _ _ _ x1, x1]
    · have hC : (cutover d project service tr0).2 = t1 ++ [["docker", "network", "disconnect", project, service ++ "_new"]] := by
        simp [cutover, switchTraffic, getContainerID, cleanup, hg, runCmds, r0, newContainerSuffix]
      rw [hC, hl, List.append_assoc, issued_append] at hp
      obtain ⟨q, hq, hnet, hmem⟩ := prefix_net d project tr0 l _ p net0 pl hp
      rw [hnet, hmem _ hc, hmem _ hdo, ← hl]
      simp only [List.prefix_cons_iff, List.prefix_nil] at hq
      rcases hq with rfl | ⟨_, rfl, rfl⟩ <;>
        simp [replayNet, netStep, hold, hsh, hne, hne2, hd2, hdistinct, Function.update_apply, netStep_failed _ _ _ _ x0, x0]


/-! ## Volumes -/

/-- One step of the volume loop of `startContainer`. -/
theorem volumeArgs_cons (project volume : String) (rest : List String) (b : Nat)
    (h : firstByte volume = some b) :
    volumeArgs project (volume :: rest) =
      (volumeArgs project rest).map
        (fun r => "-v" :: (if isLetter b then project ++ "-" ++ volume else volume) :: r) := by
  rw [volumeArgs, h]
  cases volumeArgs project rest <;> rfl

/-- A binding that starts with an ASCII letter is namespaced with the project. -/
theorem volumeArgs_letter (project : String) (c : Char) (cs : List Char) (rest : List String)
    (hc : isLetter c.toNat = true) (hascii : c.toNat < 128) :
    volumeArgs project (String.mk (c :: cs) :: rest) =
      (volumeArgs project rest).map
        (fun r => "-v" :: (project ++ "-" ++ String.mk (c :: cs)) :: r) := by
  have hb : firstByte (String.mk (c :: cs)) = some c.toNat := by
    simp [firstByte, utf8FirstByte, hascii]
  rw [volumeArgs_cons project _ rest _ hb]
  simp [hc]

/-- A binding that is a path (starts with `/`) is passed unchanged. -/
theorem volumeArgs_path (project : String) (cs : List Char) (rest : List String) :
    volumeArgs project (String.mk ('/' :: cs) :: rest) =
      (volumeArgs project rest).map (fun r => "-v" :: String.mk ('/' :: cs) :: r) := by
  have hb : firstByte (String.mk ('/' :: cs)) = some 47 := by
    simp [firstByte, utf8FirstByte]
  rw [volumeArgs_cons project _ rest _ hb]
  simp [isLetter]

/-- The function `createVolume` always starts by inspecting `project-volume`, and
creates that volume when the inspection fails. -/
theorem createVolume_name (d : Deployment) (project volume : String) (tr : Trace) :
    (createVolume d project volume tr).2 =
        tr ++ [["docker", "volume", "inspect", project ++ "-" ++ volume]] ∨
    (createVolume d project volume tr).2 =
        tr ++ [["docker", "volume", "inspect", project ++ "-" ++ volume],
               ["docker", "volume", "create", project ++ "-" ++ volume]] := by
  unfold createVolume
  rcases runCommand_cases d "docker" ["volume", "inspect", project ++ "-" ++ volume] tr with
    ⟨out, _, h⟩ | ⟨e, _, h⟩
  · simp [h]
  · simp only [h]
    rcases runCommand_cases d "docker" ["volume", "create", project ++ "-" ++ volume]
        (tr ++ ["docker" :: ["volume", "inspect", project ++ "-" ++ volume]]) with
      ⟨out2, _, h2⟩ | ⟨e2, _, h2⟩
    · simp [h2]
    · simp [h2]

/-- C7 at the failing input: for project `shop` and the volume declared by the
bare name `9data`, `createVolume` provisions `shop-9data`, but `startContainer`
binds `-v 9data:/var/data`, not `shop-9data:/var/data`: the first byte `9` is
not a letter.  A name starting with a letter (`data`) is bound as `shop-data`
and a path is bound unchanged. -/
theorem volume_digit_name_not_namespaced :
    createVolume freshHost "shop" "9data" [] =
      (.ok (), [["docker", "volume", "inspect", "shop-9data"],
                ["docker", "volume", "create", "shop-9data"]]) ∧
    volumeArgs "shop" ["9data:/var/data"] = some ["-v", "9data:/var/data"] ∧
    startContainer freshHost "shop" digitVolumeService "" [] =
      (.ok (), [launchCmd "api" "shop"
        ["-v", "9data:/var/data", "--label", "ftl.config-hash=h2", "img:v2"]]) ∧
    volumeArgs "shop" ["data:/var/data", "/srv/conf:/conf"] =
      some ["-v", "shop-data:/var/data", "-v", "/srv/conf:/conf"] := by
  refine ⟨by rfl, by rfl, by rfl, by rfl⟩

/-! ## Errors during the lookup -/

/-- C9 fails: on `flakyHost` the `docker inspect` of the listed container `c1`
fails during the lookup, and `deployService` returns success; on `psDownHost`
the listing `docker ps` fails, and `deployService` goes on to launch the
container `api` and returns success. -/
theorem deployService_lookup_error_not_returned :
    (flakyHost.executor (pullCmds "img:v2" ++ [psCmd "shop"]) ["docker", "inspect", "c1"] =
        .runErr "No such container: c1" ∧
      deployService flakyHost "shop" demoService [] =
        (.ok (), pullCmds "img:v2" ++ demoLookup ++ demoLookup)) ∧
    (psDownHost.executor (pullCmds "img:v2") (psCmd "shop") = .runErr "connection lost" ∧
      deployService psDownHost "shop" demoService [] =
        (.ok (), pullCmds "img:v2" ++ [psCmd "shop"] ++ pullCmds "img:v2" ++
          [launchCmd "api" "shop" demoLaunchArgs, healthPoll "api"])) := by
  refine ⟨⟨by rfl, by rfl⟩, by rfl, by rfl⟩

/-- C9 as amended.  The error `runCommand` reports for a failed command is
`commandError`: the executor's error text behind a fixed prefix.  When the
`docker pull` or the `docker images` of its image pull fails, `deployService`
returns `failed to pull image for Name: ` followed by that error and issues
nothing after the failed command.  When `docker ps` fails, `getContainerInfo`
returns `failed to get container IDs: ` followed by that error.  A listed
container whose `docker inspect` fails is skipped: the lookup goes on with
the remaining listed containers. -/
theorem lookup_error_handling (d : Deployment) :
    (∀ (project : String) (service : Service) (tr : Trace) (e : String),
      commandError (d.executor tr ["docker", "pull", service.Image]) = some e →
      deployService d project service tr =
        (.err ("failed to pull image for " ++ service.Name ++ ": " ++ e),
          tr ++ [["docker", "pull", service.Image]])) ∧
    (∀ (project : String) (service : Service) (tr : Trace) (o1 e : String),
      d.executor tr ["docker", "pull", service.Image] = .ok o1 →
      commandError (d.executor (tr ++ [["docker", "pull", service.Image]])
        ["docker", "images", "--no-trunc", "--format=\x7b\x7b.ID\x7d\x7d", service.Image]) =
          some e →
      deployService d project service tr =
        (.err ("failed to pull image for " ++ service.Name ++ ": " ++ e),
          tr ++ pullCmds service.Image)) ∧
    (∀ (service network : String) (tr : Trace) (e : String),
      commandError (d.executor tr (psCmd network)) = some e →
      getContainerInfo d service network tr =
        (.err ("failed to get container IDs: " ++ e), tr ++ [psCmd network])) ∧
    (∀ (service network cid : String) (rest : List String) (tr : Trace),
      (∀ out, d.executor tr ["docker", "inspect", cid] ≠ .ok out) →
      scanContainers d service network (cid :: rest) tr =
        scanContainers d service network rest (tr ++ [["docker", "inspect", cid]])) := by
  refine ⟨?_, ?_, ?_, ?_⟩
  · intro project service tr e h
    unfold deployService
    simp only [pullImage_pull_failed d service.Image tr e h]
  · intro project service tr o1 e h1 h2
    unfold deployService
    simp only [pullImage_images_failed d service.Image tr o1 e h1 h2]
  · intro service network tr e h
    unfold getContainerInfo
    simp only [runCommand_failed d "docker" ["ps", "-aq", "--filter", "network=" ++ network]
      tr e h]
    rfl
  · intro service network cid rest tr hf
    rw [scanContainers_cons]
    have : aliasHolder d service network (d.executor tr ["docker", "inspect", cid]) = none := by
      rw [aliasHolder_eq_none]
      rintro info ⟨out, _, _, h, _⟩
      exact hf out h
    rw [this]

/-- C9 as amended, on the demo hosts: on `flakyHost` the failed inspection of
`c1` is skipped and the lookup finds `c2`; on `psDownHost` the lookup returns
the executor's error `connection lost` behind the two prefixes. -/
theorem lookup_error_handling_witness :
    scanContainers flakyHost "api" "shop" ["c1", "c2"] [psCmd "shop"] =
      (.ok (runningInfo "sha256:v2" "h2"), demoLookup) ∧
    getContainerInfo psDownHost "api" "shop" [] =
      (.err "failed to get container IDs: failed to run command: connection lost",
        [psCmd "shop"]) :=
  ⟨((lookup_error_handling flakyHost).2.2.2 "api" "shop" "c1" ["c2"] [psCmd "shop"]
      (by intro out h; simp [flakyHost] at h)).trans (by rfl),
   (lookup_error_handling psDownHost).2.2.1 "api" "shop" []
      "failed to run command: connection lost" (by rfl)⟩

/-! ## The statements on the demo host -/

/-- C1 on the demo host when the shadow reads `starting` three times: an
error, and the trace ends with the three polls and `docker rm -f api_new`. -/
theorem UpdateService_rollback_witness :
    (∃ msg, (UpdateService (demoDeployment "sha256:v1" "h1" "starting") "shop"
      demoService []).1 = .err msg) ∧
    (UpdateService (demoDeployment "sha256:v1" "h1" "starting") "shop" demoService []).2 =
      pullCmds "img:v2" ++ [launchCmd "api_new" "shop" demoLaunchArgs] ++
        List.replicate 3 (healthPoll "api_new") ++ [["docker", "rm", "-f", "api_new"]] :=
  have w := UpdateService_rollback (demoDeployment "sha256:v1" "h1" "starting") "shop"
    demoService ⟨"/health", 1000000000, 1000000000, 3⟩ [] (pullCmds "img:v2")
    (pullCmds "img:v2" ++ [launchCmd "api_new" "shop" demoLaunchArgs]) "sha256:v2"
    rfl (by rfl) (by rfl) (fun _ _ => by rfl)
  ⟨w.1, w.2.2.1⟩

/-- C2 on the demo host when the running container has the pulled image and the
current hash label: success after the pull and the two lookups only. -/
theorem deployService_idempotent_witness :
    deployService (demoDeployment "sha256:v2" "h2" "healthy") "shop" demoService [] =
      (.ok (), pullCmds "img:v2" ++ demoLookup ++ demoLookup) :=
  (deployService_idempotent (demoDeployment "sha256:v2" "h2" "healthy") "shop" demoService
    [] (pullCmds "img:v2") (pullCmds "img:v2" ++ demoLookup)
    (pullCmds "img:v2" ++ demoLookup ++ demoLookup) "sha256:v2" "h2"
    (runningInfo "sha256:v2" "h2") (runningInfo "sha256:v2" "h2")
    (by rfl) (by rfl) (by rfl) (by rfl) (by rfl) (by rfl)).1

/-- C3 on the demo host when the running container has image ID `sha256:v1`
and the current hash label `h2`, while `docker images` reports `sha256:v2`:
after the lookup, the pull and the launch of the shadow `api_new`. -/
theorem deployService_image_drift_witness :
    ∃ ext,
      (deployService (demoDeployment "sha256:v1" "h2" "healthy") "shop" demoService []).2 =
        pullCmds "img:v2" ++ demoLookup ++ pullCmds "img:v2" ++
          [launchCmd "api_new" "shop" demoLaunchArgs] ++ ext :=
  (deployService_image_drift (demoDeployment "sha256:v1" "h2" "healthy") "shop" demoService
    [] "" "sha256:v2\n" "c1\nc2\n" 1 (runningInfo "sha256:v1" "h2")
    (by rfl) (by rfl) (by rfl) (by decide)
    ⟨"J2", [], ⟨["api", "c2"]⟩, by rfl, by rfl, by rfl, by decide⟩
    (fun j hj => by
      obtain rfl : j = 0 := by omega
      exact (aliasHolder_eq_none _ _ _ _).mp (by rfl))
    (by decide)).2.2 "" "sha256:v2\n"
    ["-v", "shop-data:/var/data", "-v", "/srv/conf:/conf"] "h2"
    (by rfl) (by rfl) (by rfl) (by rfl)

/-- C4 on the demo host when the running container `c2` has the pulled image
and the stale hash label `h1`: one full update cycle. -/
theorem deployService_config_change_witness :
    ∃ rest : List String,
      (deployService (demoDeployment "sha256:v2" "h1" "healthy") "shop" demoService []).1 =
        .ok () ∧
      mutating (issued []
          (deployService (demoDeployment "sha256:v2" "h1" "healthy") "shop" demoService []).2) =
        [launchCmd "api_new" "shop" rest,
         ["docker", "network", "disconnect", "shop", "api_new"],
         ["docker", "network", "connect", "--alias", "api", "shop", "api_new"],
         ["docker", "network", "disconnect", "shop", "c2"],
         ["docker", "stop", "c2"],
         ["docker", "rm", "c2"],
         ["docker", "rename", "api_new", "api"]] :=
  deployService_config_change (demoDeployment "sha256:v2" "h1" "healthy") "shop" demoService
    [] (pullCmds "img:v2") (pullCmds "img:v2" ++ demoLookup)
    (pullCmds "img:v2" ++ demoLookup ++ demoLookup)
    (pullCmds "img:v2" ++ demoLookup ++ demoLookup ++ pullCmds "img:v2")
    (pullCmds "img:v2" ++ demoLookup ++ demoLookup ++ pullCmds "img:v2" ++
      [launchCmd "api_new" "shop" demoLaunchArgs])
    (pullCmds "img:v2" ++ demoLookup ++ demoLookup ++ pullCmds "img:v2" ++
      [launchCmd "api_new" "shop" demoLaunchArgs, healthPoll "api_new"])
    (pullCmds "img:v2" ++ demoLookup ++ demoLookup ++ pullCmds "img:v2" ++
      [launchCmd "api_new" "shop" demoLaunchArgs, healthPoll "api_new"] ++ demoLookup)
    "sha256:v2" "sha256:v2" "h2"
    (runningInfo "sha256:v2" "h1") (runningInfo "sha256:v2" "h1") (runningInfo "sha256:v2" "h1")
    (fun tr c => by simp only [demoDeployment]; split_ifs <;> exact ⟨_, rfl⟩)
    (by rfl) (by rfl) (by rfl) (by rfl) (by rfl) (by decide) (by rfl) (by rfl) (by rfl) (by rfl)

/-- C5 on the demo host, after the prefix that ends with the shadow's
reconnect: both `c2` and `api_new` hold the alias `api`. -/
theorem cutover_no_dual_absence_witness :
    ("api" ∈ replayNet (demoDeployment "sha256:v2" "h1" "healthy") "shop" []
        (demoLookup ++ [["docker", "network", "disconnect", "shop", "api_new"],
          ["docker", "network", "connect", "--alias", "api", "shop", "api_new"]])
        demoNet "c2" ∨
      "api" ∈ replayNet (demoDeployment "sha256:v2" "h1" "healthy") "shop" []
        (demoLookup ++ [["docker", "network", "disconnect", "shop", "api_new"],
          ["docker", "network", "connect", "--alias", "api", "shop", "api_new"]])
        demoNet "api_new") :=
  (cutover_no_dual_absence (demoDeployment "sha256:v2" "h1" "healthy") "shop" "api" []
    demoNet "c2"
    (demoLookup ++ [["docker", "network", "disconnect", "shop", "api_new"],
      ["docker", "network", "connect", "--alias", "api", "shop", "api_new"]])
    (by decide) (by rfl) (by decide)
    (fun id tr1 h => by
      have e : getContainerID (demoDeployment "sha256:v2" "h1" "healthy") "shop" "api" [] =
          (.ok "c2", demoLookup) := by rfl
      rw [e] at h
      simp only [Prod.mk.injEq, Res.ok.injEq] at h
      exact h.1.symm)
    ⟨[["docker", "network", "disconnect", "shop", "c2"], ["docker", "stop", "c2"],
      ["docker", "rm", "c2"], ["docker", "rename", "api_new", "api"]], by rfl⟩).1

/-- C8 on the demo host when the container reads `starting` three times: the
container `api` was launched, `InstallService` fails after the three polls;
and on `freshHost` for a service without a health check: success right after
the launch of `api`. -/
theorem InstallService_path_witness :
    InstallService (demoDeployment "sha256:v1" "h1" "starting") "shop" demoService [] =
      (.err "install failed for api: container is unhealthy: container failed to become healthy",
        pullCmds "img:v2" ++ [launchCmd "api" "shop" demoLaunchArgs] ++
          List.replicate 3 (healthPoll "api")) ∧
    InstallService freshHost "shop" digitVolumeService [] =
      (.ok (), pullCmds "img:v2" ++ [launchCmd "api" "shop"
        ["-v", "9data:/var/data", "--label", "ftl.config-hash=h2", "img:v2"]]) :=
  ⟨((((InstallService_path (demoDeployment "sha256:v1" "h1" "starting") "shop"
      demoService []).2.1 "" "sha256:v2\n"
      ["-v", "shop-data:/var/data", "-v", "/srv/conf:/conf"] "h2"
      (by rfl) (by rfl) (by rfl) (by rfl)).2 "" (by rfl)).2
      ⟨"/health", 1000000000, 1000000000, 3⟩ rfl (fun _ _ => by rfl)),
   ((((InstallService_path freshHost "shop" digitVolumeService []).2.1 "" ""
      ["-v", "9data:/var/data"] "h2" (by rfl) (by rfl) (by rfl) (by rfl)).2 ""
      (by rfl)).1 rfl)⟩

/-- C10 on the demo host: `c1` is listed first but does not hold the alias
`api`; the lookup returns `c2`. -/
theorem getContainerInfo_by_alias_witness :
    getContainerInfo (demoDeployment "sha256:v2" "h2" "healthy") "api" "shop" [] =
      (.ok (runningInfo "sha256:v2" "h2"), demoLookup) :=
  (getContainerInfo_by_alias (demoDeployment "sha256:v2" "h2" "healthy") "api" "shop" []
    "c1\nc2\n" (by rfl)).1 1 (runningInfo "sha256:v2" "h2") (by decide)
    ⟨"J2", [], ⟨["api", "c2"]⟩, by rfl, by rfl, by rfl, by decide⟩
    (fun j hj => by
      obtain rfl : j = 0 := by omega
      exact (aliasHolder_eq_none _ _ _ _).mp (by rfl))

end Ftl
